import Mathlib

/-!
# jwtproxy: configuration loading and the proxy supervisor

A shallow embedding of `config/config.go` (package `config`) and of
`jwtproxy.go` (package `jwtproxy`), followed by the properties proved about them.

Go pointers are values of type `Option (Ref α)`: `none` is `nil`, `some r` is a
pointer to the object at address `r.addr` whose content is `r.val`.  The
operating system and the YAML library are parameters of `Load`.
-/

set_option linter.dupNamespace false

namespace config

/-- An error value, represented by the text of its message. -/
abbrev Error := String

/-- Go's time.Duration, a signed number of nanoseconds. -/
abbrev Duration := Int

/-- The constant time.Second. -/
def Second : Duration := 1000000000

/-- The constant time.Minute. -/
def Minute : Duration := 60 * Second

/-- A non-nil pointer: the address of an object and the value stored there. -/
structure Ref (α : Type) where
  addr : Nat
  val : α
deriving DecidableEq, Repr

/-- URL wraps a pointer to a parsed url.URL; the parsed URL is kept as text. -/
structure URL where
  URL : Option String
deriving DecidableEq, Repr

structure HMACKey where
  ID : String
  Secret : String
  Region : String
  Service : String
deriving DecidableEq, Repr

/-- Configuration used to enable and configure the signing half of the proxy. -/
structure SignerConfig where
  ListenerAddr : String
  Key : Option (Ref HMACKey)
deriving DecidableEq, Repr

structure TLSConfig where
  CertFile : String
  KeyFile : String
  CAFile : String
  RequireClientCertificate : String
deriving DecidableEq, Repr

/-- Configuration options for a verifier credential source; the inline option
map keeps its values as text. -/
structure CredentialSourceConfig where
  Type' : String
  Options : List (String × String)
deriving DecidableEq, Repr

/-- Configuration used to enable and configure the verifier half of the proxy. -/
structure VerifierConfig where
  ListenerAddr : String
  Upstream : URL
  MaxClockSkew : Duration
  TLS : Option (Ref TLSConfig)
  CredentialSource : Option (Ref CredentialSourceConfig)
deriving DecidableEq, Repr

structure Config where
  Signer : Option (Ref SignerConfig)
  Verifier : Option (Ref VerifierConfig)
deriving DecidableEq, Repr

structure configFile where
  HmacProxy : Option (Ref Config)
deriving DecidableEq, Repr

/-- The initializer of the package-level variable DefaultConfig.  The three
objects its composite literal allocates get the addresses 1, 2 and 3. -/
def DefaultConfig : configFile :=
  { HmacProxy := some
      { addr := 1
        val :=
          { Signer := some
              { addr := 2
                val := { ListenerAddr := ":8080", Key := none } }
            Verifier := some
              { addr := 3
                val :=
                  { ListenerAddr := ":8081"
                    Upstream := { URL := none }
                    MaxClockSkew := 1 * Minute
                    TLS := none
                    CredentialSource := none } } } } }

/-- The mutable package-level state of package config: the current content of
the variable DefaultConfig. -/
structure Package where
  DefaultConfig : configFile
deriving DecidableEq, Repr

/-- The package state once the package is initialised and before any call. -/
def Package.init : Package := { DefaultConfig := config.DefaultConfig }

/-- An open file, named by its descriptor. -/
abbrev File := Nat

/-- The collaborators of Load that are not part of the package: os.ExpandEnv,
os.Open, ioutil.ReadAll and yaml.Unmarshal.  Unmarshal gets the bytes and the
current content of the object it decodes into, and gives the content after
decoding together with the error it returns (none for a nil error). -/
structure OS where
  ExpandEnv : String → String
  Open : String → Except Error File
  ReadAll : File → Except Error String
  Unmarshal : String → configFile → configFile × Option Error

/-- The calls Load makes on its collaborators. -/
inductive Call where
  | Open (name : String)
  | ReadAll (f : File)
  | Unmarshal (d : String)
  | Close (f : File)
deriving DecidableEq, Repr

/-- What a call of Load leaves behind: the two named results, the package state
after the call, and the calls made, in order. -/
structure LoadResult where
  config : Option (Ref Config)
  err : Option Error
  pkg : Package
  calls : List Call
deriving DecidableEq, Repr

/-- Load is a shortcut to open a file, read it, and generate a Config.
`cFile` is the address of the package-level DefaultConfig, so what
yaml.Unmarshal stores through it is stored in DefaultConfig, and
`cFile.HmacProxy` is read from DefaultConfig.  The named result `config` is nil
until the last assignment; the deferred Close runs on every return after a
successful Open. -/
def Load (os : OS) (pkg : Package) (path : String) : LoadResult :=
  if path = "" then
    { config := none, err := some "A configuration file is required", pkg := pkg, calls := [] }
  else
    let name := os.ExpandEnv path
    match os.Open name with
    | .error e =>
      { config := none, err := some e, pkg := pkg, calls := [Call.Open name] }
    | .ok f =>
      match os.ReadAll f with
      | .error e =>
        { config := none, err := some e, pkg := pkg
          calls := [Call.Open name, Call.ReadAll f, Call.Close f] }
      | .ok d =>
        let out := os.Unmarshal d pkg.DefaultConfig
        let pkg1 : Package := { DefaultConfig := out.1 }
        match out.2 with
        | some e =>
          { config := none, err := some e, pkg := pkg1
            calls := [Call.Open name, Call.ReadAll f, Call.Unmarshal d, Call.Close f] }
        | none =>
          { config := pkg1.DefaultConfig.HmacProxy, err := none, pkg := pkg1
            calls := [Call.Open name, Call.ReadAll f, Call.Unmarshal d, Call.Close f] }

/-- The clock-skew tolerance a returned Config holds, when it has a verifier. -/
def maxClockSkewOf (c : Option (Ref Config)) : Option Duration :=
  match c with
  | none => none
  | some r =>
    match r.val.Verifier with
    | none => none
    | some v => some v.val.MaxClockSkew

/-- The signer listener address a returned Config holds. -/
def signerAddrOf (c : Option (Ref Config)) : Option String :=
  match c with
  | none => none
  | some r =>
    match r.val.Signer with
    | none => none
    | some s => some s.val.ListenerAddr

/-- The verifier listener address a returned Config holds. -/
def verifierAddrOf (c : Option (Ref Config)) : Option String :=
  match c with
  | none => none
  | some r =>
    match r.val.Verifier with
    | none => none
    | some v => some v.val.ListenerAddr

/-! ### A concrete file system with two documents -/

/-- The text of `skew.yaml`: it sets the verifier's clock-skew tolerance only. -/
def skewDoc : String := "hmacproxy:\n  verifier:\n    maxclockskew: 5m\n"

/-- The text of `addr.yaml`: it sets the signer's listener address only. -/
def addrDoc : String := "hmacproxy:\n  signer:\n    listeneraddr: \":9090\"\n"

/-- Decoding into the verifier section: a nil pointer on the way is replaced by
a new zero object (at the given addresses), a non-nil one is followed. -/
def setMaxClockSkew (d : Duration) (c : configFile) : configFile :=
  let cfg : Ref Config :=
    match c.HmacProxy with
    | some r => r
    | none => { addr := 100, val := { Signer := none, Verifier := none } }
  let ver : Ref VerifierConfig :=
    match cfg.val.Verifier with
    | some v => v
    | none =>
      { addr := 101
        val := { ListenerAddr := "", Upstream := { URL := none }, MaxClockSkew := 0
                 TLS := none, CredentialSource := none } }
  { HmacProxy := some
      { cfg with val := { cfg.val with
          Verifier := some { ver with val := { ver.val with MaxClockSkew := d } } } } }

/-- Decoding into the signer section, as setMaxClockSkew does for the verifier. -/
def setSignerAddr (a : String) (c : configFile) : configFile :=
  let cfg : Ref Config :=
    match c.HmacProxy with
    | some r => r
    | none => { addr := 100, val := { Signer := none, Verifier := none } }
  let sg : Ref SignerConfig :=
    match cfg.val.Signer with
    | some s => s
    | none => { addr := 102, val := { ListenerAddr := "", Key := none } }
  { HmacProxy := some
      { cfg with val := { cfg.val with
          Signer := some { sg with val := { sg.val with ListenerAddr := a } } } } }

/-- What yaml.Unmarshal does with the two documents: the fields a document
names are stored into the object decoded into, the others are left as they
are.  Any other text is rejected. -/
def demoUnmarshal (d : String) (c : configFile) : configFile × Option Error :=
  if d = skewDoc then (setMaxClockSkew (5 * Minute) c, none)
  else if d = addrDoc then (setSignerAddr ":9090" c, none)
  else (c, some "yaml: unmarshal errors")

/-- A file system holding `skew.yaml` and `addr.yaml`, and an environment in
which the two paths expand to themselves. -/
def demoOS : OS :=
  { ExpandEnv := fun p => p
    Open := fun p =>
      if p = "skew.yaml" then .ok 3
      else if p = "addr.yaml" then .ok 4
      else .error ("open " ++ p ++ ": no such file or directory")
    ReadAll := fun f =>
      if f = 3 then .ok skewDoc
      else if f = 4 then .ok addrDoc
      else .error "read: bad file descriptor"
    Unmarshal := demoUnmarshal }

end config

namespace jwtproxy

open config (Error Duration)

/-! ### Configuration and collaborators of the supervisor

The type parameters `S` and `V` stand for the signer and verifier settings an
entry carries, `H` for a constructed handler (the value of type
`*jwt.StoppableProxyHandler`) and `P` for a constructed proxy (`*proxy.Proxy`).
-/

/-- Modelled from the spec: the declaration of config.SignerProxyConfig is not
among the sources; these are the fields jwtproxy.go reads from it (the entry's
listen address, certificate authority material, signer settings and socket
permission). -/
structure SignerProxyConfig (S : Type) where
  Enabled : Bool
  ListenAddr : String
  ShutdownTimeout : Duration
  CAKeyFile : String
  CACrtFile : String
  InsecureSkipVerify : Bool
  TrustedCertificates : List String
  Signer : S
  SocketPermission : Nat

/-- Modelled from the spec: the declaration of config.VerifierProxyConfig is not
among the sources; these are the fields jwtproxy.go reads from it (the entry's
listen address, server certificate and key, verifier settings and socket
permission). -/
structure VerifierProxyConfig (V : Type) where
  Enabled : Bool
  ListenAddr : String
  CrtFile : String
  KeyFile : String
  ShutdownTimeout : Duration
  Verifier : V
  SocketPermission : Nat

/-- Modelled from the spec: the Config that RunProxies receives, with the two
fields jwtproxy.go reads: one signer entry and a list of verifier entries. -/
structure Config (S V : Type) where
  SignerProxy : SignerProxyConfig S
  VerifierProxies : List (VerifierProxyConfig V)

/-- The functions of packages jwt and proxy that one instance calls, with the
results they give to that instance.  NewProxy and NewReverseProxy get the
handler whose Handler field is passed; Serve gives the error it returns, none
when it returns nil or keeps serving. -/
structure Deps (S V H P : Type) where
  NewJWTSignerHandler : S → Except Error H
  NewJWTVerifierHandler : V → Except Error H
  NewProxy : H → String → String → Bool → List String → Except Error P
  NewReverseProxy : H → Except Error P
  Serve : P → String → String → String → Duration → Nat → Option Error

/-! ### Goroutine bodies as sequences of operations -/

/-- The operations of the goroutine a stop function starts. -/
inductive StopOp (H P : Type) where
  /-- The call `proxy.Stop()`, which returns a channel. -/
  | proxyStop (proxy : P)
  /-- The receive from the channel the proxy's Stop returned. -/
  | recvProxy (proxy : P)
  /-- The call `handler.Stop()`, which returns a channel. -/
  | handlerStop (handler : H)
  /-- The receive from the channel the handler's Stop returned. -/
  | recvHandler (handler : H)
  /-- The statement `close(done)`. -/
  | closeDone
deriving DecidableEq, Repr

/-- The operations of the goroutine startProxy starts. -/
inductive ServeOp (P : Type) where
  /-- The call of log.Infof with the proxy name and the listen address. -/
  | Infof (proxyName listenAddr : String)
  /-- The call `proxy.Serve(listenAddr, crtFile, keyFile, shutdownTimeout, socketPermission)`. -/
  | Serve (proxy : P) (listenAddr crtFile keyFile : String) (shutdownTimeout : Duration)
      (socketPermission : Nat)
  /-- The send `abort <- err`. -/
  | send (err : Error)
deriving DecidableEq, Repr

/-- The operations of the goroutine that runs StartForwardProxy or
StartReverseProxy.  A stop function is given by the body of the goroutine it
starts. -/
inductive Op (S V H P : Type) where
  | NewJWTSignerHandler (cfg : S)
  | NewProxy (handler : H) (caKeyFile caCrtFile : String) (insecureSkipVerify : Bool)
      (trustedCertificates : List String)
  | NewJWTVerifierHandler (cfg : V)
  | NewReverseProxy (handler : H)
  /-- The call `stopper.Add(handler)`. -/
  | Add (handler : H)
  /-- The send `abort <- err`. -/
  | send (err : Error)
  /-- A go statement, with the body of the goroutine it starts. -/
  | go (body : List (ServeOp P))
  /-- The call `stopper.AddFunc(f)`. -/
  | AddFunc (f : List (StopOp H P))
deriving DecidableEq, Repr

variable {S V H P : Type}

/-- The goroutine of the closure forwardStopper: it makes the channel done,
starts this goroutine and returns done. -/
def forwardStopper (forwardProxy : P) (signer : H) : List (StopOp H P) :=
  [StopOp.proxyStop forwardProxy, StopOp.recvProxy forwardProxy,
   StopOp.handlerStop signer, StopOp.recvHandler signer, StopOp.closeDone]

/-- The goroutine of the closure reverseStopper. -/
def reverseStopper (reverseProxy : P) (verifier : H) : List (StopOp H P) :=
  [StopOp.proxyStop reverseProxy, StopOp.recvProxy reverseProxy,
   StopOp.handlerStop verifier, StopOp.recvHandler verifier, StopOp.closeDone]

/-- The function startProxy: one go statement whose goroutine logs, calls Serve
and sends on abort when Serve returns an error. -/
def startProxy (deps : Deps S V H P) (listenAddr crtFile keyFile : String)
    (shutdownTimeout : Duration) (proxyName : String) (proxy : P) (socketPermission : Nat) :
    List (Op S V H P) :=
  [Op.go
    ([ServeOp.Infof proxyName listenAddr,
      ServeOp.Serve proxy listenAddr crtFile keyFile shutdownTimeout socketPermission] ++
      match deps.Serve proxy listenAddr crtFile keyFile shutdownTimeout socketPermission with
      | some err => [ServeOp.send ("Failed to start " ++ proxyName ++ " proxy: " ++ err)]
      | none => [])]

/-- StartForwardProxy starts a new signer proxy; also adds a graceful stop
function to the stop group.  Potential startup errors are sent to abort. -/
def StartForwardProxy (deps : Deps S V H P) (fpConfig : SignerProxyConfig S) :
    List (Op S V H P) :=
  Op.NewJWTSignerHandler fpConfig.Signer ::
  match deps.NewJWTSignerHandler fpConfig.Signer with
  | .error err => [Op.send ("Failed to create JWT signer: " ++ err)]
  | .ok signer =>
    Op.NewProxy signer fpConfig.CAKeyFile fpConfig.CACrtFile fpConfig.InsecureSkipVerify
      fpConfig.TrustedCertificates ::
    match deps.NewProxy signer fpConfig.CAKeyFile fpConfig.CACrtFile
        fpConfig.InsecureSkipVerify fpConfig.TrustedCertificates with
    | .error err => [Op.Add signer, Op.send ("Failed to create forward proxy: " ++ err)]
    | .ok forwardProxy =>
      startProxy deps fpConfig.ListenAddr "" "" fpConfig.ShutdownTimeout "forward"
        forwardProxy fpConfig.SocketPermission ++
      [Op.AddFunc (forwardStopper forwardProxy signer)]

/-- StartReverseProxy starts a new verifier proxy; also adds a graceful stop
function to the stop group.  Potential startup errors are sent to abort. -/
def StartReverseProxy (deps : Deps S V H P) (rpConfig : VerifierProxyConfig V) :
    List (Op S V H P) :=
  Op.NewJWTVerifierHandler rpConfig.Verifier ::
  match deps.NewJWTVerifierHandler rpConfig.Verifier with
  | .error err => [Op.send ("Failed to create JWT verifier: " ++ err)]
  | .ok verifier =>
    Op.NewReverseProxy verifier ::
    match deps.NewReverseProxy verifier with
    | .error err => [Op.Add verifier, Op.send ("Failed to create reverse proxy: " ++ err)]
    | .ok reverseProxy =>
      startProxy deps rpConfig.ListenAddr rpConfig.CrtFile rpConfig.KeyFile
        rpConfig.ShutdownTimeout "reverse" reverseProxy rpConfig.SocketPermission ++
      [Op.AddFunc (reverseStopper reverseProxy verifier)]

/-- A go statement of RunProxies: the function it starts and the entry passed. -/
inductive Go (S V : Type) where
  | StartForwardProxy (fpConfig : SignerProxyConfig S)
  | StartReverseProxy (rpConfig : VerifierProxyConfig V)

/-- Modelled from the spec: package stop is not among the sources; a stop group
is what has been registered with it, and NewGroup gives an empty one. -/
inductive Registered (H P : Type) where
  | handler (h : H)
  | func (f : List (StopOp H P))
deriving DecidableEq, Repr

/-- The group stop.NewGroup() returns. -/
def NewGroup : List (Registered H P) := []

/-- A channel of errors, given by its capacity; `make(chan error)` has none. -/
structure Chan where
  capacity : Nat
deriving DecidableEq, Repr

/-- What RunProxies returns, and the goroutines it has started, in order. -/
structure Running (S V H P : Type) where
  stopper : List (Registered H P)
  abort : Chan
  started : List (Go S V)

/-- RunProxies starts the signer proxy and the verifier proxies in their own
goroutines and returns a stop group and the abort channel. -/
def RunProxies (config : Config S V) : Running S V H P :=
  let forward : List (Go S V) :=
    if config.SignerProxy.Enabled then [Go.StartForwardProxy config.SignerProxy] else []
  let started := config.VerifierProxies.foldl
    (fun acc verifierConfig =>
      if verifierConfig.Enabled then acc ++ [Go.StartReverseProxy verifierConfig] else acc)
    forward
  { stopper := NewGroup, abort := { capacity := 0 }, started := started }

/-- The body of the goroutine a go statement of RunProxies starts. -/
def Go.body (deps : Deps S V H P) : Go S V → List (Op S V H P)
  | Go.StartForwardProxy fpConfig => jwtproxy.StartForwardProxy deps fpConfig
  | Go.StartReverseProxy rpConfig => jwtproxy.StartReverseProxy deps rpConfig

/-- The bodies of the goroutines started, the one at position k + i calling the
collaborators `world (k + i)`. -/
def bodiesFrom (world : Nat → Deps S V H P) : Nat → List (Go S V) → List (List (Op S V H P))
  | _, [] => []
  | k, g :: gs => g.body (world k) :: bodiesFrom world (k + 1) gs

/-- The goroutines of a call of RunProxies: the i-th started goroutine calls
the collaborators `world i`. -/
def launch (world : Nat → Deps S V H P) (config : Config S V) : List (List (Op S V H P)) :=
  bodiesFrom world 0 (RunProxies (H := H) (P := P) config).started

/-! ### What a goroutine body does -/

/-- The errors a startProxy goroutine sends on abort. -/
def serveSends (body : List (ServeOp P)) : List Error :=
  body.filterMap fun
    | ServeOp.send e => some e
    | _ => none

/-- The errors sent on abort by an instance: by its own goroutine and by the
goroutines it starts, in program order. -/
def abortSends : List (Op S V H P) → List Error
  | [] => []
  | Op.send e :: rest => e :: abortSends rest
  | Op.go body :: rest => serveSends body ++ abortSends rest
  | _ :: rest => abortSends rest

/-- The arguments of a call of Serve. -/
structure ServeArgs (P : Type) where
  proxy : P
  listenAddr : String
  crtFile : String
  keyFile : String
  shutdownTimeout : Duration
  socketPermission : Nat
deriving DecidableEq, Repr

/-- The calls of Serve a startProxy goroutine makes. -/
def serveCallsOf (body : List (ServeOp P)) : List (ServeArgs P) :=
  body.filterMap fun
    | ServeOp.Serve p a c k t m =>
      some { proxy := p, listenAddr := a, crtFile := c, keyFile := k, shutdownTimeout := t,
             socketPermission := m }
    | _ => none

/-- The calls of Serve made by the goroutines an instance starts. -/
def serveCalls : List (Op S V H P) → List (ServeArgs P)
  | [] => []
  | Op.go body :: rest => serveCallsOf body ++ serveCalls rest
  | _ :: rest => serveCalls rest

/-- The number of proxy constructions (NewProxy, NewReverseProxy) an instance calls. -/
def proxyConstructions : List (Op S V H P) → Nat
  | [] => 0
  | Op.NewProxy _ _ _ _ _ :: rest => proxyConstructions rest + 1
  | Op.NewReverseProxy _ :: rest => proxyConstructions rest + 1
  | _ :: rest => proxyConstructions rest

/-- What an instance registers with the stop group, in order. -/
def registrations : List (Op S V H P) → List (Registered H P)
  | [] => []
  | Op.Add h :: rest => Registered.handler h :: registrations rest
  | Op.AddFunc f :: rest => Registered.func f :: registrations rest
  | _ :: rest => registrations rest

/-- The handlers whose Stop a registration calls when the group is stopped. -/
def Registered.stops : Registered H P → List H
  | Registered.handler h => [h]
  | Registered.func f =>
    f.filterMap fun
      | StopOp.handlerStop h => some h
      | _ => none

/-- The startup error of a forward instance in the words of the specification:
the error of the first failing stage, behind the text that names the stage. -/
def forwardStartupError (deps : Deps S V H P) (c : SignerProxyConfig S) : Option Error :=
  match deps.NewJWTSignerHandler c.Signer with
  | .error e => some ("Failed to create JWT signer: " ++ e)
  | .ok signer =>
    match deps.NewProxy signer c.CAKeyFile c.CACrtFile c.InsecureSkipVerify
        c.TrustedCertificates with
    | .error e => some ("Failed to create forward proxy: " ++ e)
    | .ok p =>
      match deps.Serve p c.ListenAddr "" "" c.ShutdownTimeout c.SocketPermission with
      | some e => some ("Failed to start forward proxy: " ++ e)
      | none => none

/-- The startup error of a reverse instance in the words of the specification. -/
def reverseStartupError (deps : Deps S V H P) (c : VerifierProxyConfig V) : Option Error :=
  match deps.NewJWTVerifierHandler c.Verifier with
  | .error e => some ("Failed to create JWT verifier: " ++ e)
  | .ok verifier =>
    match deps.NewReverseProxy verifier with
    | .error e => some ("Failed to create reverse proxy: " ++ e)
    | .ok p =>
      match deps.Serve p c.ListenAddr c.CrtFile c.KeyFile c.ShutdownTimeout
          c.SocketPermission with
      | some e => some ("Failed to start reverse proxy: " ++ e)
      | none => none

/-- The startup error of the instance a go statement starts. -/
def Go.startupError (deps : Deps S V H P) : Go S V → Option Error
  | Go.StartForwardProxy c => forwardStartupError deps c
  | Go.StartReverseProxy c => reverseStartupError deps c

/-- The startup errors of the instances started, the one at position k + i
calling the collaborators `world (k + i)`: one entry per failing instance. -/
def failuresFrom (world : Nat → Deps S V H P) : Nat → List (Go S V) → List Error
  | _, [] => []
  | k, g :: gs => (g.startupError (world k)).toList ++ failuresFrom world (k + 1) gs

/-- The errors sent on abort by a list of instances. -/
def allSends : List (List (Op S V H P)) → List Error
  | [] => []
  | body :: bodies => abortSends body ++ allSends bodies

/-! ### Running a stop function -/

/-- The state of the goroutine of a stop function: what it has left to do, the
channel each Stop returned (none before the call, then whether the channel has
signalled), and whether done is closed. -/
structure StopState (H P : Type) where
  rest : List (StopOp H P)
  proxyChan : Option Bool
  handlerChan : Option Bool
  done : Bool
deriving DecidableEq, Repr

/-- What happens next: the goroutine does its next operation, or the channel
returned by the proxy's (the handler's) Stop signals. -/
inductive StopChoice where
  | run
  | proxySignals
  | handlerSignals
deriving DecidableEq, Repr

/-- The state in which a stop function starts its goroutine. -/
def StopState.start (f : List (StopOp H P)) : StopState H P :=
  { rest := f, proxyChan := none, handlerChan := none, done := false }

/-- One step.  A receive can be done only once its channel has signalled, and a
channel can signal only once the Stop that returns it has been called. -/
def StopState.step (s : StopState H P) : StopChoice → Option (StopState H P)
  | StopChoice.proxySignals =>
    match s.proxyChan with
    | some _ => some { s with proxyChan := some true }
    | none => none
  | StopChoice.handlerSignals =>
    match s.handlerChan with
    | some _ => some { s with handlerChan := some true }
    | none => none
  | StopChoice.run =>
    match s.rest with
    | [] => none
    | StopOp.proxyStop _ :: rest => some { s with rest := rest, proxyChan := some false }
    | StopOp.recvProxy _ :: rest =>
      if s.proxyChan = some true then some { s with rest := rest } else none
    | StopOp.handlerStop _ :: rest => some { s with rest := rest, handlerChan := some false }
    | StopOp.recvHandler _ :: rest =>
      if s.handlerChan = some true then some { s with rest := rest } else none
    | StopOp.closeDone :: rest => some { s with rest := rest, done := true }

/-- The state after a sequence of steps, none when one of them is not possible. -/
def StopState.run (s : StopState H P) : List StopChoice → Option (StopState H P)
  | [] => some s
  | c :: cs =>
    match s.step c with
    | some s1 => s1.run cs
    | none => none

/-- The stop order: the handler's Stop has been called only if the proxy's
channel has signalled, and done is closed only if both channels have. -/
def StopState.ordered (s : StopState H P) : Prop :=
  (s.handlerChan ≠ none → s.proxyChan = some true) ∧
  (s.done = true → s.proxyChan = some true ∧ s.handlerChan = some true)

/-! ### Running the goroutines of RunProxies against a caller -/

/-- The goroutines started by RunProxies and by startProxy with what each has
left to do, the stop group, the calls of Serve made so far, the errors the
caller has received from abort, and the number of receives from abort the
caller still does. -/
structure Sys (S V H P : Type) where
  instances : List (List (Op S V H P))
  servers : List (List (ServeOp P))
  stopper : List (Registered H P)
  served : List (ServeArgs P)
  received : List Error
  receives : Nat

/-- Which goroutine does its next operation. -/
inductive Choice where
  | inst (i : Nat)
  | serv (j : Nat)
deriving DecidableEq, Repr

/-- The state RunProxies leaves behind, with a caller that receives n times. -/
def Sys.start (world : Nat → Deps S V H P) (config : Config S V) (n : Nat) : Sys S V H P :=
  { instances := launch world config
    servers := []
    stopper := (RunProxies (H := H) (P := P) config).stopper
    served := []
    received := []
    receives := n }

/-- The next operation of goroutine i, with the goroutines once it is done. -/
def pop {α : Type} : List (List α) → Nat → Option (α × List (List α))
  | [], _ => none
  | [] :: _, 0 => none
  | (op :: rest) :: ts, 0 => some (op, rest :: ts)
  | t :: ts, i + 1 =>
    match pop ts i with
    | some (op, ts1) => some (op, t :: ts1)
    | none => none

/-- One step of one goroutine.  The channel abort has no buffer: a send is done
only together with a receive of the caller.  No other operation waits. -/
def Sys.step (s : Sys S V H P) : Choice → Option (Sys S V H P)
  | Choice.inst i =>
    match pop s.instances i with
    | some (Op.send e, instances) =>
      match s.receives with
      | 0 => none
      | n + 1 =>
        some { s with instances := instances, received := s.received ++ [e], receives := n }
    | some (Op.go body, instances) =>
      some { s with instances := instances, servers := s.servers ++ [body] }
    | some (Op.Add h, instances) =>
      some { s with instances := instances, stopper := s.stopper ++ [Registered.handler h] }
    | some (Op.AddFunc f, instances) =>
      some { s with instances := instances, stopper := s.stopper ++ [Registered.func f] }
    | some (_, instances) => some { s with instances := instances }
    | none => none
  | Choice.serv j =>
    match pop s.servers j with
    | some (ServeOp.send e, servers) =>
      match s.receives with
      | 0 => none
      | n + 1 =>
        some { s with servers := servers, received := s.received ++ [e], receives := n }
    | some (ServeOp.Serve p a c k t m, servers) =>
      some { s with
        servers := servers
        served := s.served ++
          [{ proxy := p, listenAddr := a, crtFile := c, keyFile := k, shutdownTimeout := t
             socketPermission := m }] }
    | some (_, servers) => some { s with servers := servers }
    | none => none

/-- The state after a sequence of steps, none when one of them is not possible. -/
def Sys.run (s : Sys S V H P) : List Choice → Option (Sys S V H P)
  | [] => some s
  | c :: cs =>
    match s.step c with
    | some s1 => s1.run cs
    | none => none

/-- The errors the startProxy goroutines still have to send. -/
def allServeSends : List (List (ServeOp P)) → List Error
  | [] => []
  | body :: bodies => serveSends body ++ allServeSends bodies

/-- The errors not yet sent: those of the sends the goroutines still have to do. -/
def Sys.pending (s : Sys S V H P) : List Error :=
  allSends s.instances ++ allServeSends s.servers

/-- Whether an operation is a call of a constructor of package jwt or proxy. -/
def Op.isCall : Op S V H P → Bool
  | Op.NewJWTSignerHandler _ => true
  | Op.NewProxy _ _ _ _ _ => true
  | Op.NewJWTVerifierHandler _ => true
  | Op.NewReverseProxy _ => true
  | _ => false

/-- Whether an operation is a send on abort. -/
def Op.isSend : Op S V H P → Bool
  | Op.send _ => true
  | _ => false

/-- The states of the goroutine of the stop function of proxy p and handler h,
by the number of operations done. -/
def StopInv (p : P) (h : H) (s : StopState H P) : Prop :=
  (s.rest = [StopOp.proxyStop p, StopOp.recvProxy p, StopOp.handlerStop h,
      StopOp.recvHandler h, StopOp.closeDone] ∧
    s.proxyChan = none ∧ s.handlerChan = none ∧ s.done = false) ∨
  (s.rest = [StopOp.recvProxy p, StopOp.handlerStop h, StopOp.recvHandler h,
      StopOp.closeDone] ∧
    s.proxyChan ≠ none ∧ s.handlerChan = none ∧ s.done = false) ∨
  (s.rest = [StopOp.handlerStop h, StopOp.recvHandler h, StopOp.closeDone] ∧
    s.proxyChan = some true ∧ s.handlerChan = none ∧ s.done = false) ∨
  (s.rest = [StopOp.recvHandler h, StopOp.closeDone] ∧
    s.proxyChan = some true ∧ s.handlerChan ≠ none ∧ s.done = false) ∨
  (s.rest = [StopOp.closeDone] ∧
    s.proxyChan = some true ∧ s.handlerChan = some true ∧ s.done = false) ∨
  (s.rest = [] ∧ s.proxyChan = some true ∧ s.handlerChan = some true ∧ s.done = true)

/-- Whether an operation of a startProxy goroutine is a send on abort. -/
def ServeOp.isSend : ServeOp P → Bool
  | ServeOp.send _ => true
  | _ => false

/-- Whether an instance goroutine can do nothing without the caller: it is at
its end or at a send on abort. -/
def waits : List (Op S V H P) → Bool
  | [] => true
  | op :: _ => op.isSend

/-- Whether a startProxy goroutine can do nothing without the caller. -/
def serveWaits : List (ServeOp P) → Bool
  | [] => true
  | op :: _ => op.isSend

/-- Whether no goroutine can do anything without the caller. -/
def Sys.quiet (s : Sys S V H P) : Bool :=
  s.instances.all waits && s.servers.all serveWaits

/-- The calls of Serve a list of instances makes. -/
def allServeCalls : List (List (Op S V H P)) → List (ServeArgs P)
  | [] => []
  | body :: bodies => serveCalls body ++ allServeCalls bodies

/-- The calls of Serve a list of startProxy goroutines makes. -/
def allServeCallsOf : List (List (ServeOp P)) → List (ServeArgs P)
  | [] => []
  | body :: bodies => serveCallsOf body ++ allServeCallsOf bodies

/-- The calls of Serve not yet made. -/
def Sys.toServe (s : Sys S V H P) : List (ServeArgs P) :=
  allServeCalls s.instances ++ allServeCallsOf s.servers

/-- The number of steps an operation stands for: a go statement counts for
itself and for the operations of the goroutine it starts. -/
def Op.size : Op S V H P → Nat
  | Op.go body => body.length + 1
  | _ => 1

/-- The number of steps a list of instance goroutines has left. -/
def opsLeft : List (List (Op S V H P)) → Nat
  | [] => 0
  | body :: bodies => (body.map Op.size).sum + opsLeft bodies

/-- The number of steps a list of startProxy goroutines has left. -/
def serveOpsLeft : List (List (ServeOp P)) → Nat
  | [] => 0
  | body :: bodies => body.length + serveOpsLeft bodies

/-- The number of steps all goroutines have left. -/
def Sys.size (s : Sys S V H P) : Nat :=
  opsLeft s.instances + serveOpsLeft s.servers

/-- Whether a startProxy goroutine has a send on abort only as its last
operation. -/
def sendLastOf : List (ServeOp P) → Bool
  | [] => true
  | ServeOp.send _ :: rest => rest.isEmpty
  | _ :: rest => sendLastOf rest

/-- Whether an instance goroutine, and each goroutine it starts, has a send on
abort only as its last operation. -/
def sendLast : List (Op S V H P) → Bool
  | [] => true
  | Op.send _ :: rest => rest.isEmpty
  | Op.go body :: rest => sendLastOf body && sendLast rest
  | _ :: rest => sendLast rest

/-! ### A concrete set of collaborators -/

/-- Collaborators for instance i, over text settings and numbered handlers and
proxies: a handler cannot be made from empty settings, a forward proxy not
without a key file, and Serve fails on an empty listen address. -/
def demoDeps (i : Nat) : Deps String String Nat Nat :=
  { NewJWTSignerHandler := fun s => if s = "" then .error "no private key" else .ok (100 + i)
    NewJWTVerifierHandler := fun v => if v = "" then .error "no key server" else .ok (200 + i)
    NewProxy := fun h k _ _ _ => if k = "" then .error "no CA key" else .ok (h + 1000)
    NewReverseProxy := fun h => .ok (h + 1000)
    Serve := fun _ a _ _ _ _ => if a = "" then some "listen: missing address" else none }

/-- A signer entry with the given switch, listen address, key file and settings. -/
def demoSigner (enabled : Bool) (addr key signer : String) : SignerProxyConfig String :=
  { Enabled := enabled, ListenAddr := addr, ShutdownTimeout := 5 * config.Second
    CAKeyFile := key, CACrtFile := "ca.crt", InsecureSkipVerify := false
    TrustedCertificates := [], Signer := signer, SocketPermission := 0 }

/-- A verifier entry with the given switch, listen address and settings. -/
def demoVerifier (enabled : Bool) (addr verifier : String) : VerifierProxyConfig String :=
  { Enabled := enabled, ListenAddr := addr, CrtFile := "tls.crt", KeyFile := "tls.key"
    ShutdownTimeout := 5 * config.Second, Verifier := verifier, SocketPermission := 0 }

/-- Two signer-side and verifier-side failures: the signer entry has no
settings, the second verifier entry has none either, the first one is sound and
the third is switched off. -/
def demoConfig : Config String String :=
  { SignerProxy := demoSigner true ":8080" "ca.key" ""
    VerifierProxies :=
      [demoVerifier true ":8081" "keys", demoVerifier true ":8082" "",
       demoVerifier false ":8083" "keys"] }

/-- One failure only: the signer entry of demoConfig with its settings in place. -/
def soundSignerConfig : Config String String :=
  { demoConfig with SignerProxy := demoSigner true ":8080" "ca.key" "key.pem" }

end jwtproxy

/-! ## Properties of package config -/

namespace config

theorem Load_err_config (os : OS) (pkg : Package) (path : String) :
    (Load os pkg path).err ≠ none → (Load os pkg path).config = none := by
  unfold Load
  split
  · intro _; rfl
  · dsimp only
    split
    · intro _; rfl
    · split
      · intro _; rfl
      · split
        · intro _; rfl
        · intro h; exact absurd rfl h

theorem Load_ok_config (os : OS) (pkg : Package) (path : String) :
    (Load os pkg path).err = none →
      ∃ f d, os.Open (os.ExpandEnv path) = .ok f ∧ os.ReadAll f = .ok d ∧
        (os.Unmarshal d pkg.DefaultConfig).2 = none ∧
        (Load os pkg path).config = (os.Unmarshal d pkg.DefaultConfig).1.HmacProxy := by
  unfold Load
  split
  · intro h; cases h
  · dsimp only
    split
    · intro h; cases h
    · rename_i f hf
      split
      · intro h; cases h
      · rename_i d hd
        split
        · intro h; cases h
        · rename_i hu
          intro _
          exact ⟨f, d, hf, hd, hu, rfl⟩

/-- C8: Load fails closed.  Load of the empty path returns the error
"A configuration file is required" and a nil Config and makes no call on the
file system; for every path a non-nil error comes with a nil Config; and with a
nil error the file was opened and read, yaml.Unmarshal returned nil, and the
Config returned is the HmacProxy of the decoded configFile. -/
theorem Load_fails_closed (os : OS) (pkg : Package) :
    ((Load os pkg "").err = some "A configuration file is required" ∧
      (Load os pkg "").config = none ∧ (Load os pkg "").calls = []) ∧
    (∀ path, (Load os pkg path).err ≠ none → (Load os pkg path).config = none) ∧
    (∀ path, (Load os pkg path).err = none →
      ∃ f d, os.Open (os.ExpandEnv path) = .ok f ∧ os.ReadAll f = .ok d ∧
        (os.Unmarshal d pkg.DefaultConfig).2 = none ∧
        (Load os pkg path).config = (os.Unmarshal d pkg.DefaultConfig).1.HmacProxy) :=
  ⟨⟨rfl, rfl, rfl⟩, fun path => Load_err_config os pkg path,
    fun path => Load_ok_config os pkg path⟩

/-- A missing file gives an error and a nil Config; `skew.yaml` loads. -/
theorem Load_fails_closed_witness :
    ((Load demoOS Package.init "missing.yaml").err ≠ none ∧
      (Load demoOS Package.init "missing.yaml").config = none) ∧
    ((Load demoOS Package.init "skew.yaml").err = none ∧
      ∃ f d, demoOS.Open (demoOS.ExpandEnv "skew.yaml") = .ok f ∧ demoOS.ReadAll f = .ok d ∧
        (demoOS.Unmarshal d Package.init.DefaultConfig).2 = none ∧
        (Load demoOS Package.init "skew.yaml").config =
          (demoOS.Unmarshal d Package.init.DefaultConfig).1.HmacProxy) :=
  ⟨⟨by decide, (Load_fails_closed demoOS Package.init).2.1 "missing.yaml" (by decide)⟩,
    ⟨by decide, (Load_fails_closed demoOS Package.init).2.2 "skew.yaml" (by decide)⟩⟩

/-- C6: in a new process Load of `addr.yaml`, which does not set the verifier's
MaxClockSkew, returns the default of one minute; after a Load of `skew.yaml`,
which sets five minutes, the same Load of `addr.yaml` succeeds and returns five
minutes, not one.  Likewise Load of `skew.yaml`, which sets no listener address,
returns after a Load of `addr.yaml` the signer address ":9090" that document
stored, not ":8080". -/
theorem Load_defaults_after_earlier_Load :
    maxClockSkewOf (Load demoOS Package.init "addr.yaml").config = some (1 * Minute) ∧
    (Load demoOS (Load demoOS Package.init "skew.yaml").pkg "addr.yaml").err = none ∧
    maxClockSkewOf (Load demoOS (Load demoOS Package.init "skew.yaml").pkg "addr.yaml").config
      = some (5 * Minute) ∧
    maxClockSkewOf (Load demoOS (Load demoOS Package.init "skew.yaml").pkg "addr.yaml").config
      ≠ some (1 * Minute) ∧
    signerAddrOf (Load demoOS (Load demoOS Package.init "addr.yaml").pkg "skew.yaml").config
      = some ":9090" := by
  decide

/-- C7: the code at the failing input.  In a new process Load of `skew.yaml`
leaves DefaultConfig with other values than before the call, the Config it
returns is the pointer held in DefaultConfig, and Load of `addr.yaml` returns
another Config after it than in a new process. -/
theorem Load_changes_DefaultConfig :
    (Load demoOS Package.init "skew.yaml").pkg.DefaultConfig ≠ Package.init.DefaultConfig ∧
    (Load demoOS Package.init "skew.yaml").config =
      (Load demoOS Package.init "skew.yaml").pkg.DefaultConfig.HmacProxy ∧
    (Load demoOS (Load demoOS Package.init "skew.yaml").pkg "addr.yaml").config ≠
      (Load demoOS Package.init "addr.yaml").config := by
  decide

end config

/-! ## Properties of package jwtproxy -/

namespace jwtproxy

open config (Error Duration)

variable {S V H P : Type}

/-! ### One instance -/

theorem abortSends_StartForwardProxy (deps : Deps S V H P) (c : SignerProxyConfig S) :
    abortSends (StartForwardProxy deps c) = (forwardStartupError deps c).toList := by
  unfold StartForwardProxy forwardStartupError
  cases deps.NewJWTSignerHandler c.Signer with
  | error e => simp [abortSends]
  | ok signer =>
    dsimp only
    cases deps.NewProxy signer c.CAKeyFile c.CACrtFile c.InsecureSkipVerify
        c.TrustedCertificates with
    | error e => simp [abortSends]
    | ok p =>
      dsimp only [startProxy]
      cases deps.Serve p c.ListenAddr "" "" c.ShutdownTimeout c.SocketPermission with
      | none => simp [abortSends, serveSends]
      | some e => simp [abortSends, serveSends]

theorem abortSends_StartReverseProxy (deps : Deps S V H P) (c : VerifierProxyConfig V) :
    abortSends (StartReverseProxy deps c) = (reverseStartupError deps c).toList := by
  unfold StartReverseProxy reverseStartupError
  cases deps.NewJWTVerifierHandler c.Verifier with
  | error e => simp [abortSends]
  | ok verifier =>
    dsimp only
    cases deps.NewReverseProxy verifier with
    | error e => simp [abortSends]
    | ok p =>
      dsimp only [startProxy]
      cases deps.Serve p c.ListenAddr c.CrtFile c.KeyFile c.ShutdownTimeout
          c.SocketPermission with
      | none => simp [abortSends, serveSends]
      | some e => simp [abortSends, serveSends]

theorem abortSends_body (deps : Deps S V H P) (g : Go S V) :
    abortSends (g.body deps) = (g.startupError deps).toList := by
  cases g with
  | StartForwardProxy c => exact abortSends_StartForwardProxy deps c
  | StartReverseProxy c => exact abortSends_StartReverseProxy deps c

theorem toList_length_le_one {α : Type} (o : Option α) : o.toList.length ≤ 1 := by
  cases o <;> simp

theorem forward_signer_error (deps : Deps S V H P) (c : SignerProxyConfig S) (e : Error)
    (h : deps.NewJWTSignerHandler c.Signer = .error e) :
    StartForwardProxy deps c =
      [Op.NewJWTSignerHandler c.Signer, Op.send ("Failed to create JWT signer: " ++ e)] := by
  unfold StartForwardProxy
  rw [h]

theorem forward_proxy_error (deps : Deps S V H P) (c : SignerProxyConfig S) (signer : H)
    (e : Error) (h1 : deps.NewJWTSignerHandler c.Signer = .ok signer)
    (h2 : deps.NewProxy signer c.CAKeyFile c.CACrtFile c.InsecureSkipVerify
      c.TrustedCertificates = .error e) :
    StartForwardProxy deps c =
      [Op.NewJWTSignerHandler c.Signer,
       Op.NewProxy signer c.CAKeyFile c.CACrtFile c.InsecureSkipVerify c.TrustedCertificates,
       Op.Add signer, Op.send ("Failed to create forward proxy: " ++ e)] := by
  unfold StartForwardProxy
  rw [h1]
  dsimp only
  rw [h2]

theorem forward_constructed (deps : Deps S V H P) (c : SignerProxyConfig S) (signer : H)
    (p : P) (h1 : deps.NewJWTSignerHandler c.Signer = .ok signer)
    (h2 : deps.NewProxy signer c.CAKeyFile c.CACrtFile c.InsecureSkipVerify
      c.TrustedCertificates = .ok p) :
    StartForwardProxy deps c =
      [Op.NewJWTSignerHandler c.Signer,
       Op.NewProxy signer c.CAKeyFile c.CACrtFile c.InsecureSkipVerify c.TrustedCertificates,
       Op.go
        ([ServeOp.Infof "forward" c.ListenAddr,
          ServeOp.Serve p c.ListenAddr "" "" c.ShutdownTimeout c.SocketPermission] ++
          match deps.Serve p c.ListenAddr "" "" c.ShutdownTimeout c.SocketPermission with
          | some err => [ServeOp.send ("Failed to start " ++ "forward" ++ " proxy: " ++ err)]
          | none => []),
       Op.AddFunc (forwardStopper p signer)] := by
  unfold StartForwardProxy
  rw [h1]
  dsimp only
  rw [h2]
  rfl

theorem reverse_verifier_error (deps : Deps S V H P) (c : VerifierProxyConfig V) (e : Error)
    (h : deps.NewJWTVerifierHandler c.Verifier = .error e) :
    StartReverseProxy deps c =
      [Op.NewJWTVerifierHandler c.Verifier, Op.send ("Failed to create JWT verifier: " ++ e)] := by
  unfold StartReverseProxy
  rw [h]

theorem reverse_proxy_error (deps : Deps S V H P) (c : VerifierProxyConfig V) (verifier : H)
    (e : Error) (h1 : deps.NewJWTVerifierHandler c.Verifier = .ok verifier)
    (h2 : deps.NewReverseProxy verifier = .error e) :
    StartReverseProxy deps c =
      [Op.NewJWTVerifierHandler c.Verifier, Op.NewReverseProxy verifier,
       Op.Add verifier, Op.send ("Failed to create reverse proxy: " ++ e)] := by
  unfold StartReverseProxy
  rw [h1]
  dsimp only
  rw [h2]

theorem reverse_constructed (deps : Deps S V H P) (c : VerifierProxyConfig V) (verifier : H)
    (p : P) (h1 : deps.NewJWTVerifierHandler c.Verifier = .ok verifier)
    (h2 : deps.NewReverseProxy verifier = .ok p) :
    StartReverseProxy deps c =
      [Op.NewJWTVerifierHandler c.Verifier, Op.NewReverseProxy verifier,
       Op.go
        ([ServeOp.Infof "reverse" c.ListenAddr,
          ServeOp.Serve p c.ListenAddr c.CrtFile c.KeyFile c.ShutdownTimeout
            c.SocketPermission] ++
          match deps.Serve p c.ListenAddr c.CrtFile c.KeyFile c.ShutdownTimeout
              c.SocketPermission with
          | some err => [ServeOp.send ("Failed to start " ++ "reverse" ++ " proxy: " ++ err)]
          | none => []),
       Op.AddFunc (reverseStopper p verifier)] := by
  unfold StartReverseProxy
  rw [h1]
  dsimp only
  rw [h2]
  rfl

theorem serveCalls_forward_constructed (deps : Deps S V H P) (c : SignerProxyConfig S)
    (signer : H) (p : P) (h1 : deps.NewJWTSignerHandler c.Signer = .ok signer)
    (h2 : deps.NewProxy signer c.CAKeyFile c.CACrtFile c.InsecureSkipVerify
      c.TrustedCertificates = .ok p) :
    serveCalls (StartForwardProxy deps c) =
      [{ proxy := p, listenAddr := c.ListenAddr, crtFile := "", keyFile := ""
         shutdownTimeout := c.ShutdownTimeout, socketPermission := c.SocketPermission }] := by
  rw [forward_constructed deps c signer p h1 h2]
  cases deps.Serve p c.ListenAddr "" "" c.ShutdownTimeout c.SocketPermission <;>
    simp [serveCalls, serveCallsOf]

theorem serveCalls_reverse_constructed (deps : Deps S V H P) (c : VerifierProxyConfig V)
    (verifier : H) (p : P) (h1 : deps.NewJWTVerifierHandler c.Verifier = .ok verifier)
    (h2 : deps.NewReverseProxy verifier = .ok p) :
    serveCalls (StartReverseProxy deps c) =
      [{ proxy := p, listenAddr := c.ListenAddr, crtFile := c.CrtFile, keyFile := c.KeyFile
         shutdownTimeout := c.ShutdownTimeout, socketPermission := c.SocketPermission }] := by
  rw [reverse_constructed deps c verifier p h1 h2]
  cases deps.Serve p c.ListenAddr c.CrtFile c.KeyFile c.ShutdownTimeout c.SocketPermission <;>
    simp [serveCalls, serveCallsOf]

theorem forwardStartupError_none_iff (deps : Deps S V H P) (c : SignerProxyConfig S) :
    forwardStartupError deps c = none ↔
      ∃ signer p, deps.NewJWTSignerHandler c.Signer = .ok signer ∧
        deps.NewProxy signer c.CAKeyFile c.CACrtFile c.InsecureSkipVerify
          c.TrustedCertificates = .ok p ∧
        deps.Serve p c.ListenAddr "" "" c.ShutdownTimeout c.SocketPermission = none := by
  unfold forwardStartupError
  cases h1 : deps.NewJWTSignerHandler c.Signer with
  | error e => simp
  | ok signer =>
    cases h2 : deps.NewProxy signer c.CAKeyFile c.CACrtFile c.InsecureSkipVerify
        c.TrustedCertificates with
    | error e => simp [h2]
    | ok p =>
      cases h3 : deps.Serve p c.ListenAddr "" "" c.ShutdownTimeout c.SocketPermission <;>
        simp [h2, h3]

theorem reverseStartupError_none_iff (deps : Deps S V H P) (c : VerifierProxyConfig V) :
    reverseStartupError deps c = none ↔
      ∃ verifier p, deps.NewJWTVerifierHandler c.Verifier = .ok verifier ∧
        deps.NewReverseProxy verifier = .ok p ∧
        deps.Serve p c.ListenAddr c.CrtFile c.KeyFile c.ShutdownTimeout c.SocketPermission
          = none := by
  unfold reverseStartupError
  cases h1 : deps.NewJWTVerifierHandler c.Verifier with
  | error e => simp
  | ok verifier =>
    cases h2 : deps.NewReverseProxy verifier with
    | error e => simp [h2]
    | ok p =>
      cases h3 : deps.Serve p c.ListenAddr c.CrtFile c.KeyFile c.ShutdownTimeout
          c.SocketPermission <;>
        simp [h2, h3]

theorem length_toList_eq_one_iff {α : Type} (o : Option α) :
    o.toList.length = 1 ↔ ¬ o = none := by
  cases o <;> simp

/-- C3: each instance surfaces at most one startup error.  For all results of
the three stages of StartForwardProxy (of StartReverseProxy) the errors sent on
abort are the startup error of the specification, if there is one: the error of
the first failing stage behind the text naming that stage.  So at most one is
sent, exactly one is sent if and only if not all three stages succeed, and after
a failed construction no later stage is run: no proxy is constructed after a
failed handler construction, and Serve is called after neither. -/
theorem startup_error_single (deps : Deps S V H P) (fp : SignerProxyConfig S)
    (rp : VerifierProxyConfig V) :
    (abortSends (StartForwardProxy deps fp) = (forwardStartupError deps fp).toList ∧
      (abortSends (StartForwardProxy deps fp)).length ≤ 1 ∧
      ((abortSends (StartForwardProxy deps fp)).length = 1 ↔
        ¬ ∃ signer p, deps.NewJWTSignerHandler fp.Signer = .ok signer ∧
          deps.NewProxy signer fp.CAKeyFile fp.CACrtFile fp.InsecureSkipVerify
            fp.TrustedCertificates = .ok p ∧
          deps.Serve p fp.ListenAddr "" "" fp.ShutdownTimeout fp.SocketPermission = none) ∧
      (∀ e, deps.NewJWTSignerHandler fp.Signer = .error e →
        proxyConstructions (StartForwardProxy deps fp) = 0 ∧
        serveCalls (StartForwardProxy deps fp) = []) ∧
      (∀ signer e, deps.NewJWTSignerHandler fp.Signer = .ok signer →
        deps.NewProxy signer fp.CAKeyFile fp.CACrtFile fp.InsecureSkipVerify
          fp.TrustedCertificates = .error e →
        serveCalls (StartForwardProxy deps fp) = [])) ∧
    (abortSends (StartReverseProxy deps rp) = (reverseStartupError deps rp).toList ∧
      (abortSends (StartReverseProxy deps rp)).length ≤ 1 ∧
      ((abortSends (StartReverseProxy deps rp)).length = 1 ↔
        ¬ ∃ verifier p, deps.NewJWTVerifierHandler rp.Verifier = .ok verifier ∧
          deps.NewReverseProxy verifier = .ok p ∧
          deps.Serve p rp.ListenAddr rp.CrtFile rp.KeyFile rp.ShutdownTimeout
            rp.SocketPermission = none) ∧
      (∀ e, deps.NewJWTVerifierHandler rp.Verifier = .error e →
        proxyConstructions (StartReverseProxy deps rp) = 0 ∧
        serveCalls (StartReverseProxy deps rp) = []) ∧
      (∀ verifier e, deps.NewJWTVerifierHandler rp.Verifier = .ok verifier →
        deps.NewReverseProxy verifier = .error e →
        serveCalls (StartReverseProxy deps rp) = [])) := by
  refine ⟨⟨abortSends_StartForwardProxy deps fp, ?_, ?_, ?_, ?_⟩,
    ⟨abortSends_StartReverseProxy deps rp, ?_, ?_, ?_, ?_⟩⟩
  · rw [abortSends_StartForwardProxy]; exact toList_length_le_one _
  · rw [abortSends_StartForwardProxy, length_toList_eq_one_iff,
      forwardStartupError_none_iff]
  · intro e h
    rw [forward_signer_error deps fp e h]
    exact ⟨rfl, rfl⟩
  · intro signer e h1 h2
    rw [forward_proxy_error deps fp signer e h1 h2]
    rfl
  · rw [abortSends_StartReverseProxy]; exact toList_length_le_one _
  · rw [abortSends_StartReverseProxy, length_toList_eq_one_iff,
      reverseStartupError_none_iff]
  · intro e h
    rw [reverse_verifier_error deps rp e h]
    exact ⟨rfl, rfl⟩
  · intro verifier e h1 h2
    rw [reverse_proxy_error deps rp verifier e h1 h2]
    rfl

/-- A signer entry without a key file: the forward proxy cannot be constructed
and Serve is not called; a verifier entry without settings: no proxy is
constructed. -/
theorem startup_error_single_witness :
    ((demoDeps 0).NewJWTSignerHandler (demoSigner true ":8080" "" "key.pem").Signer
        = .ok 100 ∧
      (demoDeps 0).NewProxy 100 "" "ca.crt" false [] = .error "no CA key" ∧
      serveCalls (StartForwardProxy (demoDeps 0) (demoSigner true ":8080" "" "key.pem")) = []) ∧
    ((demoDeps 0).NewJWTVerifierHandler (demoVerifier true ":8081" "").Verifier
        = .error "no key server" ∧
      proxyConstructions (StartReverseProxy (demoDeps 0) (demoVerifier true ":8081" "")) = 0 ∧
      serveCalls (StartReverseProxy (demoDeps 0) (demoVerifier true ":8081" "")) = []) :=
  ⟨⟨rfl, rfl,
      (startup_error_single (demoDeps 0) (demoSigner true ":8080" "" "key.pem")
        (demoVerifier true ":8081" "")).1.2.2.2.2 100 "no CA key" rfl rfl⟩,
    ⟨rfl,
      (startup_error_single (demoDeps 0) (demoSigner true ":8080" "" "key.pem")
        (demoVerifier true ":8081" "")).2.2.2.2.1 "no key server" rfl⟩⟩

/-- C9: no constructed core filter is left out of shutdown.  When handler
construction fails nothing is registered with the stop group.  When proxy
construction fails the handler is registered by stopper.Add, the operation just
before the send on abort, and nothing else is registered.  When both
constructions succeed, whatever Serve returns, the one registration is the stop
function passed to stopper.AddFunc, which stops that handler once. -/
theorem handler_registered_once (deps : Deps S V H P) (fp : SignerProxyConfig S)
    (rp : VerifierProxyConfig V) :
    ((∀ e, deps.NewJWTSignerHandler fp.Signer = .error e →
        registrations (StartForwardProxy deps fp) = []) ∧
      (∀ signer e, deps.NewJWTSignerHandler fp.Signer = .ok signer →
        deps.NewProxy signer fp.CAKeyFile fp.CACrtFile fp.InsecureSkipVerify
          fp.TrustedCertificates = .error e →
        StartForwardProxy deps fp =
          [Op.NewJWTSignerHandler fp.Signer,
           Op.NewProxy signer fp.CAKeyFile fp.CACrtFile fp.InsecureSkipVerify
             fp.TrustedCertificates,
           Op.Add signer, Op.send ("Failed to create forward proxy: " ++ e)] ∧
        registrations (StartForwardProxy deps fp) = [Registered.handler signer]) ∧
      (∀ signer p, deps.NewJWTSignerHandler fp.Signer = .ok signer →
        deps.NewProxy signer fp.CAKeyFile fp.CACrtFile fp.InsecureSkipVerify
          fp.TrustedCertificates = .ok p →
        registrations (StartForwardProxy deps fp) =
          [Registered.func (forwardStopper p signer)] ∧
        (Registered.func (forwardStopper p signer)).stops = [signer])) ∧
    ((∀ e, deps.NewJWTVerifierHandler rp.Verifier = .error e →
        registrations (StartReverseProxy deps rp) = []) ∧
      (∀ verifier e, deps.NewJWTVerifierHandler rp.Verifier = .ok verifier →
        deps.NewReverseProxy verifier = .error e →
        StartReverseProxy deps rp =
          [Op.NewJWTVerifierHandler rp.Verifier, Op.NewReverseProxy verifier,
           Op.Add verifier, Op.send ("Failed to create reverse proxy: " ++ e)] ∧
        registrations (StartReverseProxy deps rp) = [Registered.handler verifier]) ∧
      (∀ verifier p, deps.NewJWTVerifierHandler rp.Verifier = .ok verifier →
        deps.NewReverseProxy verifier = .ok p →
        registrations (StartReverseProxy deps rp) =
          [Registered.func (reverseStopper p verifier)] ∧
        (Registered.func (reverseStopper p verifier)).stops = [verifier])) := by
  refine ⟨⟨?_, ?_, ?_⟩, ⟨?_, ?_, ?_⟩⟩
  · intro e h
    rw [forward_signer_error deps fp e h]
    rfl
  · intro signer e h1 h2
    rw [forward_proxy_error deps fp signer e h1 h2]
    exact ⟨rfl, rfl⟩
  · intro signer p h1 h2
    rw [forward_constructed deps fp signer p h1 h2]
    exact ⟨rfl, rfl⟩
  · intro e h
    rw [reverse_verifier_error deps rp e h]
    rfl
  · intro verifier e h1 h2
    rw [reverse_proxy_error deps rp verifier e h1 h2]
    exact ⟨rfl, rfl⟩
  · intro verifier p h1 h2
    rw [reverse_constructed deps rp verifier p h1 h2]
    exact ⟨rfl, rfl⟩

/-- A signer entry whose Serve fails on the empty listen address still
registers its stop function; a verifier entry the same. -/
theorem handler_registered_once_witness :
    ((demoDeps 0).NewJWTSignerHandler (demoSigner true "" "ca.key" "key.pem").Signer
        = .ok 100 ∧
      (demoDeps 0).NewProxy 100 "ca.key" "ca.crt" false [] = .ok 1100 ∧
      (demoDeps 0).Serve 1100 "" "" "" (5 * config.Second) 0 = some "listen: missing address" ∧
      registrations (StartForwardProxy (demoDeps 0) (demoSigner true "" "ca.key" "key.pem")) =
        [Registered.func (forwardStopper 1100 100)] ∧
      (Registered.func (forwardStopper 1100 100) : Registered Nat Nat).stops = [100]) ∧
    ((demoDeps 0).NewJWTVerifierHandler (demoVerifier true ":8081" "keys").Verifier
        = .ok 200 ∧
      (demoDeps 0).NewReverseProxy 200 = .ok 1200 ∧
      registrations (StartReverseProxy (demoDeps 0) (demoVerifier true ":8081" "keys")) =
        [Registered.func (reverseStopper 1200 200)] ∧
      (Registered.func (reverseStopper 1200 200) : Registered Nat Nat).stops = [200]) :=
  ⟨⟨rfl, rfl, rfl,
      (handler_registered_once (demoDeps 0) (demoSigner true "" "ca.key" "key.pem")
        (demoVerifier true ":8081" "keys")).1.2.2 100 1100 rfl rfl⟩,
    ⟨rfl, rfl,
      (handler_registered_once (demoDeps 0) (demoSigner true "" "ca.key" "key.pem")
        (demoVerifier true ":8081" "keys")).2.2.2 200 1200 rfl rfl⟩⟩

/-- C10: the forward proxy listens in plaintext and the reverse proxy with its
configured certificate.  When handler and proxy construction both succeed,
StartForwardProxy calls Serve exactly once, on the constructed proxy, with the
configured ListenAddr, empty certificate and key file names, and the configured
ShutdownTimeout and SocketPermission; StartReverseProxy calls it exactly once
with the configured ListenAddr, CrtFile, KeyFile, ShutdownTimeout and
SocketPermission.  Serve is not called when either construction fails. -/
theorem Serve_called_once (deps : Deps S V H P) (fp : SignerProxyConfig S)
    (rp : VerifierProxyConfig V) :
    ((∀ signer p, deps.NewJWTSignerHandler fp.Signer = .ok signer →
        deps.NewProxy signer fp.CAKeyFile fp.CACrtFile fp.InsecureSkipVerify
          fp.TrustedCertificates = .ok p →
        serveCalls (StartForwardProxy deps fp) =
          [{ proxy := p, listenAddr := fp.ListenAddr, crtFile := "", keyFile := ""
             shutdownTimeout := fp.ShutdownTimeout
             socketPermission := fp.SocketPermission }]) ∧
      (∀ e, deps.NewJWTSignerHandler fp.Signer = .error e →
        serveCalls (StartForwardProxy deps fp) = []) ∧
      (∀ signer e, deps.NewJWTSignerHandler fp.Signer = .ok signer →
        deps.NewProxy signer fp.CAKeyFile fp.CACrtFile fp.InsecureSkipVerify
          fp.TrustedCertificates = .error e →
        serveCalls (StartForwardProxy deps fp) = [])) ∧
    ((∀ verifier p, deps.NewJWTVerifierHandler rp.Verifier = .ok verifier →
        deps.NewReverseProxy verifier = .ok p →
        serveCalls (StartReverseProxy deps rp) =
          [{ proxy := p, listenAddr := rp.ListenAddr, crtFile := rp.CrtFile
             keyFile := rp.KeyFile, shutdownTimeout := rp.ShutdownTimeout
             socketPermission := rp.SocketPermission }]) ∧
      (∀ e, deps.NewJWTVerifierHandler rp.Verifier = .error e →
        serveCalls (StartReverseProxy deps rp) = []) ∧
      (∀ verifier e, deps.NewJWTVerifierHandler rp.Verifier = .ok verifier →
        deps.NewReverseProxy verifier = .error e →
        serveCalls (StartReverseProxy deps rp) = [])) := by
  refine ⟨⟨serveCalls_forward_constructed deps fp, ?_, ?_⟩,
    ⟨serveCalls_reverse_constructed deps rp, ?_, ?_⟩⟩
  · intro e h
    rw [forward_signer_error deps fp e h]
    rfl
  · intro signer e h1 h2
    rw [forward_proxy_error deps fp signer e h1 h2]
    rfl
  · intro e h
    rw [reverse_verifier_error deps rp e h]
    rfl
  · intro verifier e h1 h2
    rw [reverse_proxy_error deps rp verifier e h1 h2]
    rfl

/-- A sound signer entry and a sound verifier entry: one call of Serve each. -/
theorem Serve_called_once_witness :
    ((demoDeps 0).NewJWTSignerHandler (demoSigner true ":8080" "ca.key" "key.pem").Signer
        = .ok 100 ∧
      (demoDeps 0).NewProxy 100 "ca.key" "ca.crt" false [] = .ok 1100 ∧
      serveCalls (StartForwardProxy (demoDeps 0) (demoSigner true ":8080" "ca.key" "key.pem")) =
        [{ proxy := 1100, listenAddr := ":8080", crtFile := "", keyFile := ""
           shutdownTimeout := 5 * config.Second, socketPermission := 0 }]) ∧
    ((demoDeps 0).NewJWTVerifierHandler (demoVerifier true ":8081" "keys").Verifier
        = .ok 200 ∧
      (demoDeps 0).NewReverseProxy 200 = .ok 1200 ∧
      serveCalls (StartReverseProxy (demoDeps 0) (demoVerifier true ":8081" "keys")) =
        [{ proxy := 1200, listenAddr := ":8081", crtFile := "tls.crt", keyFile := "tls.key"
           shutdownTimeout := 5 * config.Second, socketPermission := 0 }]) :=
  ⟨⟨rfl, rfl,
      (Serve_called_once (demoDeps 0) (demoSigner true ":8080" "ca.key" "key.pem")
        (demoVerifier true ":8081" "keys")).1.1 100 1100 rfl rfl⟩,
    ⟨rfl, rfl,
      (Serve_called_once (demoDeps 0) (demoSigner true ":8080" "ca.key" "key.pem")
        (demoVerifier true ":8081" "keys")).2.1 200 1200 rfl rfl⟩⟩

/-! ### The stop function -/

theorem StopInv_step (p : P) (h : H) (s s1 : StopState H P) (c : StopChoice)
    (hs : StopInv p h s) (hstep : s.step c = some s1) : StopInv p h s1 := by
  obtain ⟨rest, pc, hc, d⟩ := s
  unfold StopInv at hs
  simp only at hs
  rcases hs with ⟨rfl, rfl, rfl, rfl⟩ | ⟨rfl, hpc, rfl, rfl⟩ | ⟨rfl, rfl, rfl, rfl⟩ |
    ⟨rfl, rfl, hhc, rfl⟩ | ⟨rfl, rfl, rfl, rfl⟩ | ⟨rfl, rfl, rfl, rfl⟩
  · cases c <;> simp [StopState.step] at hstep
    subst hstep
    simp [StopInv]
  · cases pc with
    | none => exact absurd rfl hpc
    | some b =>
      cases c <;> simp [StopState.step] at hstep
      · obtain ⟨rfl, rfl⟩ := hstep
        simp [StopInv]
      · subst hstep
        simp [StopInv]
  · cases c <;> simp [StopState.step] at hstep
    all_goals subst hstep
    all_goals simp [StopInv]
  · cases hc with
    | none => exact absurd rfl hhc
    | some b =>
      cases c <;> simp [StopState.step] at hstep
      · obtain ⟨rfl, rfl⟩ := hstep
        simp [StopInv]
      · subst hstep
        simp [StopInv]
      · subst hstep
        simp [StopInv]
  · cases c <;> simp [StopState.step] at hstep
    all_goals subst hstep
    all_goals simp [StopInv]
  · cases c <;> simp [StopState.step] at hstep
    all_goals subst hstep
    all_goals simp [StopInv]

theorem StopInv_run (p : P) (h : H) (sched : List StopChoice) :
    ∀ s s1 : StopState H P, StopInv p h s → s.run sched = some s1 → StopInv p h s1 := by
  induction sched with
  | nil =>
    intro s s1 hs hrun
    simp only [StopState.run, Option.some.injEq] at hrun
    exact hrun ▸ hs
  | cons c cs ih =>
    intro s s1 hs hrun
    simp only [StopState.run] at hrun
    cases hstep : s.step c with
    | none => rw [hstep] at hrun; cases hrun
    | some s2 =>
      rw [hstep] at hrun
      exact ih s2 s1 (StopInv_step p h s s2 c hs hstep) hrun

theorem StopInv_ordered (p : P) (h : H) (s : StopState H P) (hs : StopInv p h s) :
    s.ordered := by
  unfold StopInv at hs
  unfold StopState.ordered
  rcases hs with ⟨_, h1, h2, h3⟩ | ⟨_, h1, h2, h3⟩ | ⟨_, h1, h2, h3⟩ | ⟨_, h1, h2, h3⟩ |
    ⟨_, h1, h2, h3⟩ | ⟨_, h1, h2, h3⟩ <;> simp [h1, h2, h3]

theorem stopper_runs_ordered (p : P) (h : H) :
    (∀ sched s, (StopState.start (forwardStopper p h)).run sched = some s → s.ordered) ∧
    (∃ sched s, (StopState.start (forwardStopper p h)).run sched = some s ∧ s.done = true) := by
  constructor
  · intro sched s hrun
    refine StopInv_ordered p h s (StopInv_run p h sched _ s ?_ hrun)
    exact Or.inl ⟨rfl, rfl, rfl, rfl⟩
  · exact ⟨[StopChoice.run, StopChoice.proxySignals, StopChoice.run, StopChoice.run,
      StopChoice.handlerSignals, StopChoice.run, StopChoice.run], _, rfl, rfl⟩

theorem AddFunc_mem_forward (deps : Deps S V H P) (fp : SignerProxyConfig S)
    (f : List (StopOp H P)) (hf : Op.AddFunc f ∈ StartForwardProxy deps fp) :
    ∃ signer p, deps.NewJWTSignerHandler fp.Signer = .ok signer ∧
      deps.NewProxy signer fp.CAKeyFile fp.CACrtFile fp.InsecureSkipVerify
        fp.TrustedCertificates = .ok p ∧
      f = forwardStopper p signer := by
  cases h1 : deps.NewJWTSignerHandler fp.Signer with
  | error e =>
    rw [forward_signer_error deps fp e h1] at hf
    simp at hf
  | ok signer =>
    cases h2 : deps.NewProxy signer fp.CAKeyFile fp.CACrtFile fp.InsecureSkipVerify
        fp.TrustedCertificates with
    | error e =>
      rw [forward_proxy_error deps fp signer e h1 h2] at hf
      simp at hf
    | ok p =>
      rw [forward_constructed deps fp signer p h1 h2] at hf
      simp at hf
      exact ⟨signer, p, rfl, h2, hf⟩

theorem AddFunc_mem_reverse (deps : Deps S V H P) (rp : VerifierProxyConfig V)
    (f : List (StopOp H P)) (hf : Op.AddFunc f ∈ StartReverseProxy deps rp) :
    ∃ verifier p, deps.NewJWTVerifierHandler rp.Verifier = .ok verifier ∧
      deps.NewReverseProxy verifier = .ok p ∧
      f = reverseStopper p verifier := by
  cases h1 : deps.NewJWTVerifierHandler rp.Verifier with
  | error e =>
    rw [reverse_verifier_error deps rp e h1] at hf
    simp at hf
  | ok verifier =>
    cases h2 : deps.NewReverseProxy verifier with
    | error e =>
      rw [reverse_proxy_error deps rp verifier e h1 h2] at hf
      simp at hf
    | ok p =>
      rw [reverse_constructed deps rp verifier p h1 h2] at hf
      simp at hf
      exact ⟨verifier, p, rfl, h2, hf⟩

/-- C1: the stop function an instance registers stops the proxy first and the
core filter second.  A function that StartForwardProxy (StartReverseProxy)
passes to stopper.AddFunc is the one over the proxy and the signer (verifier)
the instance constructed: it calls the proxy's Stop, receives from the channel
returned, calls the handler's Stop, receives from its channel and closes done.
In every state its goroutine can reach, the handler's Stop has been called only
if the proxy's channel has signalled, and done is closed only if both channels
have signalled; and it can run to the end, closing done. -/
theorem stop_order (deps : Deps S V H P) (fp : SignerProxyConfig S)
    (rp : VerifierProxyConfig V) (f : List (StopOp H P)) :
    (Op.AddFunc f ∈ StartForwardProxy deps fp →
      (∃ signer p, deps.NewJWTSignerHandler fp.Signer = .ok signer ∧
        deps.NewProxy signer fp.CAKeyFile fp.CACrtFile fp.InsecureSkipVerify
          fp.TrustedCertificates = .ok p ∧
        f = [StopOp.proxyStop p, StopOp.recvProxy p, StopOp.handlerStop signer,
          StopOp.recvHandler signer, StopOp.closeDone]) ∧
      (∀ sched s, (StopState.start f).run sched = some s → s.ordered) ∧
      (∃ sched s, (StopState.start f).run sched = some s ∧ s.done = true)) ∧
    (Op.AddFunc f ∈ StartReverseProxy deps rp →
      (∃ verifier p, deps.NewJWTVerifierHandler rp.Verifier = .ok verifier ∧
        deps.NewReverseProxy verifier = .ok p ∧
        f = [StopOp.proxyStop p, StopOp.recvProxy p, StopOp.handlerStop verifier,
          StopOp.recvHandler verifier, StopOp.closeDone]) ∧
      (∀ sched s, (StopState.start f).run sched = some s → s.ordered) ∧
      (∃ sched s, (StopState.start f).run sched = some s ∧ s.done = true)) := by
  constructor
  · intro hf
    obtain ⟨signer, p, h1, h2, rfl⟩ := AddFunc_mem_forward deps fp f hf
    exact ⟨⟨signer, p, h1, h2, rfl⟩, stopper_runs_ordered p signer⟩
  · intro hf
    obtain ⟨verifier, p, h1, h2, rfl⟩ := AddFunc_mem_reverse deps rp f hf
    exact ⟨⟨verifier, p, h1, h2, rfl⟩, stopper_runs_ordered p verifier⟩

/-- The stop function of a sound signer entry: after the proxy's Stop is called
and before its channel signals, the goroutine cannot go on, and every state it
reaches is ordered. -/
theorem stop_order_witness :
    Op.AddFunc (forwardStopper 1100 100) ∈
        StartForwardProxy (demoDeps 0) (demoSigner true ":8080" "ca.key" "key.pem") ∧
      (StopState.start (forwardStopper 1100 100 : List (StopOp Nat Nat))).run
        [StopChoice.run, StopChoice.run] = none ∧
      ∀ sched s, (StopState.start (forwardStopper 1100 100 : List (StopOp Nat Nat))).run sched
        = some s → s.ordered :=
  ⟨by decide, by decide,
    ((stop_order (demoDeps 0) (demoSigner true ":8080" "ca.key" "key.pem")
      (demoVerifier true ":8081" "keys") (forwardStopper 1100 100)).1 (by decide)).2.1⟩

/-! ### RunProxies -/

theorem foldl_started (l : List (VerifierProxyConfig V)) (init : List (Go S V)) :
    l.foldl
      (fun acc verifierConfig =>
        if verifierConfig.Enabled then acc ++ [Go.StartReverseProxy verifierConfig] else acc)
      init
    = init ++ (l.filter fun v => v.Enabled).map Go.StartReverseProxy := by
  induction l generalizing init with
  | nil => simp
  | cons v l ih =>
    simp only [List.foldl_cons]
    rw [ih]
    cases hv : v.Enabled <;> simp [List.filter_cons, hv]

theorem RunProxies_started (config : Config S V) :
    (RunProxies (H := H) (P := P) config).started =
      (if config.SignerProxy.Enabled then [Go.StartForwardProxy config.SignerProxy] else []) ++
        (config.VerifierProxies.filter fun v => v.Enabled).map Go.StartReverseProxy := by
  unfold RunProxies
  exact foldl_started _ _

/-- C4: RunProxies starts exactly one instance per enabled entry.  The
goroutines it starts are StartForwardProxy on the signer entry if and only if
that entry is enabled, followed by StartReverseProxy on each enabled verifier
entry, in order, each with its own entry: a verifier entry is started if and
only if it is configured and enabled.  So their number is one or zero for the
signer entry plus the number of enabled verifier entries; with nothing enabled
none is started; and in every case a new stop group and a new channel abort are
returned. -/
theorem RunProxies_starts_enabled (config : Config S V) :
    (RunProxies (H := H) (P := P) config).started =
      (if config.SignerProxy.Enabled then [Go.StartForwardProxy config.SignerProxy] else []) ++
        (config.VerifierProxies.filter fun v => v.Enabled).map Go.StartReverseProxy ∧
    (RunProxies (H := H) (P := P) config).started.length =
      (if config.SignerProxy.Enabled then 1 else 0) +
        (config.VerifierProxies.filter fun v => v.Enabled).length ∧
    (∀ v : VerifierProxyConfig V,
      Go.StartReverseProxy v ∈ (RunProxies (H := H) (P := P) config).started ↔
        v ∈ config.VerifierProxies ∧ v.Enabled = true) ∧
    (config.SignerProxy.Enabled = false →
      (∀ v ∈ config.VerifierProxies, v.Enabled = false) →
      (RunProxies (H := H) (P := P) config).started = []) ∧
    (RunProxies (H := H) (P := P) config).stopper = NewGroup ∧
    (RunProxies (H := H) (P := P) config).abort = { capacity := 0 } := by
  refine ⟨RunProxies_started config, ?_, ?_, ?_, rfl, rfl⟩
  · rw [RunProxies_started]
    cases config.SignerProxy.Enabled <;> simp [Nat.add_comm]
  · intro v
    rw [RunProxies_started]
    cases config.SignerProxy.Enabled <;> simp
  · intro h1 h2
    rw [RunProxies_started, h1]
    have : (config.VerifierProxies.filter fun v => v.Enabled) = [] := by
      rw [List.filter_eq_nil_iff]
      intro v hv
      simp [h2 v hv]
    simp [this]

/-- With the signer entry and the only verifier entry switched off, RunProxies
starts nothing. -/
theorem RunProxies_starts_enabled_witness :
    (RunProxies (H := Nat) (P := Nat)
      ({ SignerProxy := demoSigner false ":8080" "ca.key" "key.pem"
         VerifierProxies := [demoVerifier false ":8081" "keys"] } :
        Config String String)).started = [] :=
  (RunProxies_starts_enabled
    ({ SignerProxy := demoSigner false ":8080" "ca.key" "key.pem"
       VerifierProxies := [demoVerifier false ":8081" "keys"] } :
      Config String String)).2.2.2.1 rfl (by decide)

/-! ### All instances together -/

theorem allSends_bodiesFrom (world : Nat → Deps S V H P) (gs : List (Go S V)) :
    ∀ k, allSends (bodiesFrom world k gs) = failuresFrom world k gs := by
  induction gs with
  | nil => intro k; rfl
  | cons g gs ih =>
    intro k
    simp only [bodiesFrom, allSends, failuresFrom, abortSends_body, ih]

theorem bodiesFrom_getElem? (world : Nat → Deps S V H P) (gs : List (Go S V)) :
    ∀ k j : Nat, (bodiesFrom world k gs)[j]? =
      (gs[j]?).map fun g : Go S V => g.body (world (k + j)) := by
  induction gs with
  | nil => intro k j; simp [bodiesFrom]
  | cons g gs ih =>
    intro k j
    cases j with
    | zero => simp [bodiesFrom]
    | succ j =>
      simp only [bodiesFrom, List.getElem?_cons_succ, ih]
      rw [show k + 1 + j = k + (j + 1) by omega]

theorem failuresFrom_none (world : Nat → Deps S V H P) (gs : List (Go S V)) :
    ∀ k : Nat, (∀ (j : Nat) (g : Go S V), gs[j]? = some g →
        g.startupError (world (k + j)) = none) →
      failuresFrom world k gs = [] := by
  induction gs with
  | nil => intro k _; rfl
  | cons g gs ih =>
    intro k hall
    have h0 : g.startupError (world k) = none := by
      have := hall 0 g (by simp)
      simpa using this
    have ht : failuresFrom world (k + 1) gs = [] := by
      apply ih
      intro j g1 hj
      have := hall (j + 1) g1 (by simpa using hj)
      rw [show k + 1 + j = k + (j + 1) by omega]
      exact this
    simp [failuresFrom, h0, ht]

theorem failuresFrom_single (world : Nat → Deps S V H P) (gs : List (Go S V)) :
    ∀ (k0 k : Nat) (g : Go S V) (e : Error), gs[k]? = some g →
      g.startupError (world (k0 + k)) = some e →
      (∀ (j : Nat) (g1 : Go S V), j ≠ k → gs[j]? = some g1 →
        g1.startupError (world (k0 + j)) = none) →
      failuresFrom world k0 gs = [e] := by
  induction gs with
  | nil => intro k0 k g e hk; simp at hk
  | cons g0 gs ih =>
    intro k0 k g e hk hfail hothers
    cases k with
    | zero =>
      simp only [List.getElem?_cons_zero, Option.some.injEq] at hk
      subst hk
      have ht : failuresFrom world (k0 + 1) gs = [] := by
        apply failuresFrom_none
        intro j g1 hj
        have := hothers (j + 1) g1 (by omega) (by simpa using hj)
        rw [show k0 + 1 + j = k0 + (j + 1) by omega]
        exact this
      simp only [Nat.add_zero] at hfail
      simp [failuresFrom, hfail, ht]
    | succ k =>
      have h0 : g0.startupError (world k0) = none := by
        have := hothers 0 g0 (by omega) (by simp)
        simpa using this
      have ht : failuresFrom world (k0 + 1) gs = [e] := by
        apply ih (k0 + 1) k g e (by simpa using hk)
        · rw [show k0 + 1 + k = k0 + (k + 1) by omega]
          exact hfail
        · intro j g1 hjk hj
          have := hothers (j + 1) g1 (by omega) (by simpa using hj)
          rw [show k0 + 1 + j = k0 + (j + 1) by omega]
          exact this
      simp [failuresFrom, h0, ht]

theorem pop_getElem? {α : Type} (l : List (List α)) :
    ∀ (i : Nat) (op : α) (rest : List α), l[i]? = some (op :: rest) →
      pop l i = some (op, l.set i rest) := by
  induction l with
  | nil => intro i op rest h; simp at h
  | cons t ts ih =>
    intro i op rest h
    cases i with
    | zero =>
      simp only [List.getElem?_cons_zero, Option.some.injEq] at h
      subst h
      rfl
    | succ i =>
      simp only [List.getElem?_cons_succ] at h
      simp only [pop, ih i op rest h, List.set_cons_succ]

theorem step_call (s : Sys S V H P) (j : Nat) (op : Op S V H P) (rest : List (Op S V H P))
    (hj : s.instances[j]? = some (op :: rest)) (hop : op.isCall = true) :
    s.step (Choice.inst j) = some { s with instances := s.instances.set j rest } := by
  have hp := pop_getElem? s.instances j op rest hj
  cases op <;> simp_all [Op.isCall, Sys.step]

theorem getElem?_set_of_getElem? {α : Type} (l : List α) (j : Nat) (x y : α)
    (h : l[j]? = some x) : (l.set j y)[j]? = some y := by
  rw [List.getElem?_set_self', h]
  rfl

theorem instance_runs (s : Sys S V H P) (j : Nat) (o1 o2 : Op S V H P) (name : String)
    (a : ServeArgs P) (f : List (StopOp H P)) (h1 : o1.isCall = true) (h2 : o2.isCall = true)
    (hj : s.instances[j]? = some
      [o1, o2,
       Op.go [ServeOp.Infof name a.listenAddr,
         ServeOp.Serve a.proxy a.listenAddr a.crtFile a.keyFile a.shutdownTimeout
           a.socketPermission],
       Op.AddFunc f])
    (hs : s.servers = []) :
    s.run [Choice.inst j, Choice.inst j, Choice.inst j, Choice.inst j, Choice.serv 0,
        Choice.serv 0] =
      some { s with
        instances := s.instances.set j []
        servers := [[]]
        stopper := s.stopper ++ [Registered.func f]
        served := s.served ++ [a] } := by
  simp only [Sys.run]
  rw [step_call s j o1 _ hj h1]
  simp only []
  have hj1 := getElem?_set_of_getElem? s.instances j _
    [o2, Op.go [ServeOp.Infof name a.listenAddr,
         ServeOp.Serve a.proxy a.listenAddr a.crtFile a.keyFile a.shutdownTimeout
           a.socketPermission], Op.AddFunc f] hj
  rw [step_call _ j o2 _ hj1 h2]
  simp only [List.set_set]
  have hj2 := getElem?_set_of_getElem? s.instances j _
    [Op.go [ServeOp.Infof name a.listenAddr,
         ServeOp.Serve a.proxy a.listenAddr a.crtFile a.keyFile a.shutdownTimeout
           a.socketPermission], Op.AddFunc f] hj
  have hj3 := getElem?_set_of_getElem? s.instances j _ [Op.AddFunc f] hj
  simp [Sys.step, pop_getElem? _ _ _ _ hj2, pop_getElem? _ _ _ _ hj3, List.set_set, hs, pop]

theorem body_of_no_startupError (deps : Deps S V H P) (g : Go S V)
    (h : g.startupError deps = none) :
    ∃ (o1 o2 : Op S V H P) (name : String) (a : ServeArgs P) (f : List (StopOp H P)),
      o1.isCall = true ∧ o2.isCall = true ∧
      g.body deps =
        [o1, o2,
         Op.go [ServeOp.Infof name a.listenAddr,
           ServeOp.Serve a.proxy a.listenAddr a.crtFile a.keyFile a.shutdownTimeout
             a.socketPermission],
         Op.AddFunc f] ∧
      serveCalls (g.body deps) = [a] ∧
      deps.Serve a.proxy a.listenAddr a.crtFile a.keyFile a.shutdownTimeout a.socketPermission
        = none := by
  cases g with
  | StartForwardProxy c =>
    obtain ⟨signer, p, h1, h2, h3⟩ := (forwardStartupError_none_iff deps c).1 h
    refine ⟨Op.NewJWTSignerHandler c.Signer,
      Op.NewProxy signer c.CAKeyFile c.CACrtFile c.InsecureSkipVerify c.TrustedCertificates,
      "forward",
      { proxy := p, listenAddr := c.ListenAddr, crtFile := "", keyFile := ""
        shutdownTimeout := c.ShutdownTimeout, socketPermission := c.SocketPermission },
      forwardStopper p signer, rfl, rfl, ?_,
      serveCalls_forward_constructed deps c signer p h1 h2, h3⟩
    show StartForwardProxy deps c = _
    rw [forward_constructed deps c signer p h1 h2, h3]
    rfl
  | StartReverseProxy c =>
    obtain ⟨verifier, p, h1, h2, h3⟩ := (reverseStartupError_none_iff deps c).1 h
    refine ⟨Op.NewJWTVerifierHandler c.Verifier, Op.NewReverseProxy verifier, "reverse",
      { proxy := p, listenAddr := c.ListenAddr, crtFile := c.CrtFile, keyFile := c.KeyFile
        shutdownTimeout := c.ShutdownTimeout, socketPermission := c.SocketPermission },
      reverseStopper p verifier, rfl, rfl, ?_,
      serveCalls_reverse_constructed deps c verifier p h1 h2, h3⟩
    show StartReverseProxy deps c = _
    rw [reverse_constructed deps c verifier p h1 h2, h3]
    rfl

theorem launch_getElem? (world : Nat → Deps S V H P) (config : Config S V) (j : Nat) :
    (launch world config)[j]? =
      ((RunProxies (H := H) (P := P) config).started[j]?).map
        fun g1 : Go S V => g1.body (world j) := by
  unfold launch
  rw [bodiesFrom_getElem?, Nat.zero_add]

theorem pop_opsLeft (l : List (List (Op S V H P))) :
    ∀ (i : Nat) (op : Op S V H P) (l1 : List (List (Op S V H P))),
      pop l i = some (op, l1) → opsLeft l = op.size + opsLeft l1 := by
  induction l with
  | nil => intro i op l1 h; simp [pop] at h
  | cons t ts ih =>
    intro i op l1 h
    cases i with
    | zero =>
      cases t with
      | nil => simp [pop] at h
      | cons o rest =>
        simp only [pop, Option.some.injEq, Prod.mk.injEq] at h
        obtain ⟨rfl, rfl⟩ := h
        simp only [opsLeft, List.map_cons, List.sum_cons]
        omega
    | succ i =>
      simp only [pop] at h
      cases hp : pop ts i with
      | none => rw [hp] at h; cases h
      | some r =>
        obtain ⟨o, ts1⟩ := r
        rw [hp] at h
        simp only [Option.some.injEq, Prod.mk.injEq] at h
        obtain ⟨rfl, rfl⟩ := h
        have := ih i o ts1 hp
        simp only [opsLeft]
        omega

theorem pop_serveOpsLeft (l : List (List (ServeOp P))) :
    ∀ (i : Nat) (op : ServeOp P) (l1 : List (List (ServeOp P))),
      pop l i = some (op, l1) → serveOpsLeft l = serveOpsLeft l1 + 1 := by
  induction l with
  | nil => intro i op l1 h; simp [pop] at h
  | cons t ts ih =>
    intro i op l1 h
    cases i with
    | zero =>
      cases t with
      | nil => simp [pop] at h
      | cons o rest =>
        simp only [pop, Option.some.injEq, Prod.mk.injEq] at h
        obtain ⟨rfl, rfl⟩ := h
        simp only [serveOpsLeft, List.length_cons]
        omega
    | succ i =>
      simp only [pop] at h
      cases hp : pop ts i with
      | none => rw [hp] at h; cases h
      | some r =>
        obtain ⟨o, ts1⟩ := r
        rw [hp] at h
        simp only [Option.some.injEq, Prod.mk.injEq] at h
        obtain ⟨rfl, rfl⟩ := h
        have := ih i o ts1 hp
        simp only [serveOpsLeft]
        omega

theorem serveOpsLeft_append (l : List (List (ServeOp P))) (body : List (ServeOp P)) :
    serveOpsLeft (l ++ [body]) = serveOpsLeft l + body.length := by
  induction l with
  | nil => simp [serveOpsLeft]
  | cons t ts ih =>
    show t.length + serveOpsLeft (ts ++ [body]) = t.length + serveOpsLeft ts + body.length
    rw [ih]
    omega

theorem exists_pop_of_not_waits (l : List (List (Op S V H P))) (h : l.all waits = false) :
    ∃ (i : Nat) (op : Op S V H P) (l1 : List (List (Op S V H P))),
      pop l i = some (op, l1) ∧ op.isSend = false := by
  induction l with
  | nil => simp at h
  | cons t ts ih =>
    cases ht : waits t with
    | false =>
      cases t with
      | nil => simp [waits] at ht
      | cons o rest => exact ⟨0, o, rest :: ts, rfl, by simpa [waits] using ht⟩
    | true =>
      have hts : ts.all waits = false := by
        simpa [List.all_cons, ht] using h
      obtain ⟨i, op, l1, hp, hop⟩ := ih hts
      exact ⟨i + 1, op, t :: l1, by simp [pop, hp], hop⟩

theorem exists_pop_of_not_serveWaits (l : List (List (ServeOp P)))
    (h : l.all serveWaits = false) :
    ∃ (i : Nat) (op : ServeOp P) (l1 : List (List (ServeOp P))),
      pop l i = some (op, l1) ∧ op.isSend = false := by
  induction l with
  | nil => simp at h
  | cons t ts ih =>
    cases ht : serveWaits t with
    | false =>
      cases t with
      | nil => simp [serveWaits] at ht
      | cons o rest => exact ⟨0, o, rest :: ts, rfl, by simpa [serveWaits] using ht⟩
    | true =>
      have hts : ts.all serveWaits = false := by
        simpa [List.all_cons, ht] using h
      obtain ⟨i, op, l1, hp, hop⟩ := ih hts
      exact ⟨i + 1, op, t :: l1, by simp [pop, hp], hop⟩

theorem step_inst_of_not_send (s : Sys S V H P) (i : Nat) (op : Op S V H P)
    (l1 : List (List (Op S V H P))) (hp : pop s.instances i = some (op, l1))
    (hop : op.isSend = false) :
    ∃ s1, s.step (Choice.inst i) = some s1 ∧ s1.received = s.received ∧
      s1.receives = s.receives ∧ s1.size + 1 = s.size := by
  have hsize := pop_opsLeft s.instances i op l1 hp
  cases op with
  | send e => simp [Op.isSend] at hop
  | go body =>
    have hs : s.step (Choice.inst i) =
        some { s with instances := l1, servers := s.servers ++ [body] } := by
      simp only [Sys.step, hp]
    refine ⟨_, hs, rfl, rfl, ?_⟩
    simp only [Op.size] at hsize
    simp only [Sys.size, serveOpsLeft_append, hsize]
    omega
  | NewJWTSignerHandler _ =>
    have hs : s.step (Choice.inst i) = some { s with instances := l1 } := by
      simp only [Sys.step, hp]
    refine ⟨_, hs, rfl, rfl, ?_⟩
    simp only [Op.size] at hsize
    simp only [Sys.size, hsize]
    omega
  | NewProxy _ _ _ _ _ =>
    have hs : s.step (Choice.inst i) = some { s with instances := l1 } := by
      simp only [Sys.step, hp]
    refine ⟨_, hs, rfl, rfl, ?_⟩
    simp only [Op.size] at hsize
    simp only [Sys.size, hsize]
    omega
  | NewJWTVerifierHandler _ =>
    have hs : s.step (Choice.inst i) = some { s with instances := l1 } := by
      simp only [Sys.step, hp]
    refine ⟨_, hs, rfl, rfl, ?_⟩
    simp only [Op.size] at hsize
    simp only [Sys.size, hsize]
    omega
  | NewReverseProxy _ =>
    have hs : s.step (Choice.inst i) = some { s with instances := l1 } := by
      simp only [Sys.step, hp]
    refine ⟨_, hs, rfl, rfl, ?_⟩
    simp only [Op.size] at hsize
    simp only [Sys.size, hsize]
    omega
  | Add h =>
    have hs : s.step (Choice.inst i) =
        some { s with instances := l1, stopper := s.stopper ++ [Registered.handler h] } := by
      simp only [Sys.step, hp]
    refine ⟨_, hs, rfl, rfl, ?_⟩
    simp only [Op.size] at hsize
    simp only [Sys.size, hsize]
    omega
  | AddFunc f =>
    have hs : s.step (Choice.inst i) =
        some { s with instances := l1, stopper := s.stopper ++ [Registered.func f] } := by
      simp only [Sys.step, hp]
    refine ⟨_, hs, rfl, rfl, ?_⟩
    simp only [Op.size] at hsize
    simp only [Sys.size, hsize]
    omega

theorem step_serv_of_not_send (s : Sys S V H P) (j : Nat) (op : ServeOp P)
    (l1 : List (List (ServeOp P))) (hp : pop s.servers j = some (op, l1))
    (hop : op.isSend = false) :
    ∃ s1, s.step (Choice.serv j) = some s1 ∧ s1.received = s.received ∧
      s1.receives = s.receives ∧ s1.size + 1 = s.size := by
  have hsize := pop_serveOpsLeft s.servers j op l1 hp
  cases op with
  | send e => simp [ServeOp.isSend] at hop
  | Infof _ _ =>
    have hs : s.step (Choice.serv j) = some { s with servers := l1 } := by
      simp only [Sys.step, hp]
    refine ⟨_, hs, rfl, rfl, ?_⟩
    simp only [Sys.size, hsize]
    omega
  | Serve p a c k t m =>
    have hs : s.step (Choice.serv j) =
        some { s with
          servers := l1
          served := s.served ++
            [{ proxy := p, listenAddr := a, crtFile := c, keyFile := k, shutdownTimeout := t
               socketPermission := m }] } := by
      simp only [Sys.step, hp]
    refine ⟨_, hs, rfl, rfl, ?_⟩
    simp only [Sys.size, hsize]
    omega

theorem runs_to_quiet (m : Nat) :
    ∀ s : Sys S V H P, s.size = m →
      ∃ sched s1, s.run sched = some s1 ∧ s1.quiet = true ∧ s1.received = s.received ∧
        s1.receives = s.receives := by
  induction m using Nat.strong_induction_on with
  | _ m ih =>
    intro s hm
    cases hq : s.quiet with
    | true => exact ⟨[], s, rfl, hq, rfl, rfl⟩
    | false =>
      have hstep : ∃ c s1, s.step c = some s1 ∧ s1.received = s.received ∧
          s1.receives = s.receives ∧ s1.size + 1 = s.size := by
        cases hi : s.instances.all waits with
        | false =>
          obtain ⟨i, op, l1, hp, hop⟩ := exists_pop_of_not_waits s.instances hi
          obtain ⟨s1, h1⟩ := step_inst_of_not_send s i op l1 hp hop
          exact ⟨Choice.inst i, s1, h1⟩
        | true =>
          have hj : s.servers.all serveWaits = false := by
            simpa [Sys.quiet, hi] using hq
          obtain ⟨j, op, l1, hp, hop⟩ := exists_pop_of_not_serveWaits s.servers hj
          obtain ⟨s1, h1⟩ := step_serv_of_not_send s j op l1 hp hop
          exact ⟨Choice.serv j, s1, h1⟩
      obtain ⟨c, s1, hc, hr1, hr2, hsz⟩ := hstep
      obtain ⟨sched, s2, hrun, hquiet, hr3, hr4⟩ := ih s1.size (by omega) s1 rfl
      refine ⟨c :: sched, s2, ?_, hquiet, hr3.trans hr1, hr4.trans hr2⟩
      simp only [Sys.run, hc, hrun]

theorem serveCalls_cons (op : Op S V H P) (rest : List (Op S V H P)) :
    serveCalls (op :: rest) = serveCalls [op] ++ serveCalls rest := by
  cases op <;> simp [serveCalls]

theorem serveCallsOf_cons (op : ServeOp P) (rest : List (ServeOp P)) :
    serveCallsOf (op :: rest) = serveCallsOf [op] ++ serveCallsOf rest := by
  cases op <;> simp [serveCallsOf]

theorem pop_allServeCalls (l : List (List (Op S V H P))) :
    ∀ (i : Nat) (op : Op S V H P) (l1 : List (List (Op S V H P))),
      pop l i = some (op, l1) →
        (allServeCalls l).Perm (serveCalls [op] ++ allServeCalls l1) := by
  induction l with
  | nil => intro i op l1 h; simp [pop] at h
  | cons t ts ih =>
    intro i op l1 h
    cases i with
    | zero =>
      cases t with
      | nil => simp [pop] at h
      | cons o rest =>
        simp only [pop, Option.some.injEq, Prod.mk.injEq] at h
        obtain ⟨rfl, rfl⟩ := h
        simp only [allServeCalls]
        rw [serveCalls_cons, List.append_assoc]
    | succ i =>
      simp only [pop] at h
      cases hp : pop ts i with
      | none => rw [hp] at h; cases h
      | some r =>
        obtain ⟨o, ts1⟩ := r
        rw [hp] at h
        simp only [Option.some.injEq, Prod.mk.injEq] at h
        obtain ⟨rfl, rfl⟩ := h
        have hperm := ih i o ts1 hp
        simp only [allServeCalls]
        rw [← Multiset.coe_eq_coe] at hperm ⊢
        simp only [← Multiset.coe_add] at hperm ⊢
        rw [hperm]
        abel

theorem pop_allServeCallsOf (l : List (List (ServeOp P))) :
    ∀ (i : Nat) (op : ServeOp P) (l1 : List (List (ServeOp P))),
      pop l i = some (op, l1) →
        (allServeCallsOf l).Perm (serveCallsOf [op] ++ allServeCallsOf l1) := by
  induction l with
  | nil => intro i op l1 h; simp [pop] at h
  | cons t ts ih =>
    intro i op l1 h
    cases i with
    | zero =>
      cases t with
      | nil => simp [pop] at h
      | cons o rest =>
        simp only [pop, Option.some.injEq, Prod.mk.injEq] at h
        obtain ⟨rfl, rfl⟩ := h
        simp only [allServeCallsOf]
        rw [serveCallsOf_cons, List.append_assoc]
    | succ i =>
      simp only [pop] at h
      cases hp : pop ts i with
      | none => rw [hp] at h; cases h
      | some r =>
        obtain ⟨o, ts1⟩ := r
        rw [hp] at h
        simp only [Option.some.injEq, Prod.mk.injEq] at h
        obtain ⟨rfl, rfl⟩ := h
        have hperm := ih i o ts1 hp
        simp only [allServeCallsOf]
        rw [← Multiset.coe_eq_coe] at hperm ⊢
        simp only [← Multiset.coe_add] at hperm ⊢
        rw [hperm]
        abel

theorem allServeCallsOf_append (l : List (List (ServeOp P))) (body : List (ServeOp P)) :
    allServeCallsOf (l ++ [body]) = allServeCallsOf l ++ serveCallsOf body := by
  induction l with
  | nil => simp [allServeCallsOf]
  | cons t ts ih =>
    show serveCallsOf t ++ allServeCallsOf (ts ++ [body]) = _
    rw [ih]
    simp [allServeCallsOf]

theorem step_keeps_serves (s s1 : Sys S V H P) (c : Choice) (hstep : s.step c = some s1) :
    (s1.served ++ s1.toServe).Perm (s.served ++ s.toServe) := by
  cases c with
  | inst i =>
    simp only [Sys.step] at hstep
    cases hp : pop s.instances i with
    | none => rw [hp] at hstep; cases hstep
    | some r =>
      obtain ⟨op, l1⟩ := r
      rw [hp] at hstep
      have hperm := pop_allServeCalls s.instances i op l1 hp
      rw [← Multiset.coe_eq_coe] at hperm
      simp only [← Multiset.coe_add] at hperm
      cases op with
      | send e =>
        cases hr : s.receives with
        | zero => simp [hr] at hstep
        | succ n =>
          simp only [hr, Option.some.injEq] at hstep
          subst hstep
          simp only [Sys.toServe]
          rw [← Multiset.coe_eq_coe]
          simp only [← Multiset.coe_add]
          rw [hperm]
          simp [serveCalls]
      | go body =>
        simp only [Option.some.injEq] at hstep
        subst hstep
        simp only [Sys.toServe, allServeCallsOf_append]
        rw [← Multiset.coe_eq_coe]
        simp only [← Multiset.coe_add]
        rw [hperm]
        simp only [serveCalls, List.append_nil]
        abel
      | NewJWTSignerHandler _ =>
        simp only [Option.some.injEq] at hstep
        subst hstep
        simp only [Sys.toServe]
        rw [← Multiset.coe_eq_coe]
        simp only [← Multiset.coe_add]
        rw [hperm]
        simp [serveCalls]
      | NewProxy _ _ _ _ _ =>
        simp only [Option.some.injEq] at hstep
        subst hstep
        simp only [Sys.toServe]
        rw [← Multiset.coe_eq_coe]
        simp only [← Multiset.coe_add]
        rw [hperm]
        simp [serveCalls]
      | NewJWTVerifierHandler _ =>
        simp only [Option.some.injEq] at hstep
        subst hstep
        simp only [Sys.toServe]
        rw [← Multiset.coe_eq_coe]
        simp only [← Multiset.coe_add]
        rw [hperm]
        simp [serveCalls]
      | NewReverseProxy _ =>
        simp only [Option.some.injEq] at hstep
        subst hstep
        simp only [Sys.toServe]
        rw [← Multiset.coe_eq_coe]
        simp only [← Multiset.coe_add]
        rw [hperm]
        simp [serveCalls]
      | Add _ =>
        simp only [Option.some.injEq] at hstep
        subst hstep
        simp only [Sys.toServe]
        rw [← Multiset.coe_eq_coe]
        simp only [← Multiset.coe_add]
        rw [hperm]
        simp [serveCalls]
      | AddFunc _ =>
        simp only [Option.some.injEq] at hstep
        subst hstep
        simp only [Sys.toServe]
        rw [← Multiset.coe_eq_coe]
        simp only [← Multiset.coe_add]
        rw [hperm]
        simp [serveCalls]
  | serv j =>
    simp only [Sys.step] at hstep
    cases hp : pop s.servers j with
    | none => rw [hp] at hstep; cases hstep
    | some r =>
      obtain ⟨op, l1⟩ := r
      rw [hp] at hstep
      have hperm := pop_allServeCallsOf s.servers j op l1 hp
      rw [← Multiset.coe_eq_coe] at hperm
      simp only [← Multiset.coe_add] at hperm
      cases op with
      | send e =>
        cases hr : s.receives with
        | zero => simp [hr] at hstep
        | succ n =>
          simp only [hr, Option.some.injEq] at hstep
          subst hstep
          simp only [Sys.toServe]
          rw [← Multiset.coe_eq_coe]
          simp only [← Multiset.coe_add]
          rw [hperm]
          simp [serveCallsOf]
      | Infof _ _ =>
        simp only [Option.some.injEq] at hstep
        subst hstep
        simp only [Sys.toServe]
        rw [← Multiset.coe_eq_coe]
        simp only [← Multiset.coe_add]
        rw [hperm]
        simp [serveCallsOf]
      | Serve _ _ _ _ _ _ =>
        simp only [Option.some.injEq] at hstep
        subst hstep
        simp only [Sys.toServe]
        rw [← Multiset.coe_eq_coe]
        simp only [← Multiset.coe_add]
        rw [hperm]
        simp only [serveCallsOf, List.filterMap_cons, List.filterMap_nil]
        abel

theorem run_keeps_serves (sched : List Choice) :
    ∀ s s1 : Sys S V H P, s.run sched = some s1 →
      (s1.served ++ s1.toServe).Perm (s.served ++ s.toServe) := by
  induction sched with
  | nil =>
    intro s s1 hrun
    simp only [Sys.run, Option.some.injEq] at hrun
    subst hrun
    exact List.Perm.refl _
  | cons c cs ih =>
    intro s s1 hrun
    simp only [Sys.run] at hrun
    cases hstep : s.step c with
    | none => rw [hstep] at hrun; cases hrun
    | some s2 =>
      rw [hstep] at hrun
      exact (ih s2 s1 hrun).trans (step_keeps_serves s s2 c hstep)

theorem sendLast_tail (op : Op S V H P) (rest : List (Op S V H P))
    (h : sendLast (op :: rest) = true) : sendLast rest = true := by
  cases op <;> simp_all [sendLast]

theorem sendLastOf_tail (op : ServeOp P) (rest : List (ServeOp P))
    (h : sendLastOf (op :: rest) = true) : sendLastOf rest = true := by
  cases op <;> simp_all [sendLastOf]

theorem pop_sendLast (l : List (List (Op S V H P))) :
    ∀ (i : Nat) (op : Op S V H P) (l1 : List (List (Op S V H P))),
      pop l i = some (op, l1) → l.all sendLast = true →
        l1.all sendLast = true ∧ ∀ body, op = Op.go body → sendLastOf body = true := by
  induction l with
  | nil => intro i op l1 h; simp [pop] at h
  | cons t ts ih =>
    intro i op l1 h hall
    simp only [List.all_cons, Bool.and_eq_true] at hall
    cases i with
    | zero =>
      cases t with
      | nil => simp [pop] at h
      | cons o rest =>
        simp only [pop, Option.some.injEq, Prod.mk.injEq] at h
        obtain ⟨rfl, rfl⟩ := h
        refine ⟨?_, ?_⟩
        · simp only [List.all_cons, Bool.and_eq_true]
          exact ⟨sendLast_tail o rest hall.1, hall.2⟩
        · intro body hb
          subst hb
          have := hall.1
          simp only [sendLast, Bool.and_eq_true] at this
          exact this.1
    | succ i =>
      simp only [pop] at h
      cases hp : pop ts i with
      | none => rw [hp] at h; cases h
      | some r =>
        obtain ⟨o, ts1⟩ := r
        rw [hp] at h
        simp only [Option.some.injEq, Prod.mk.injEq] at h
        obtain ⟨rfl, rfl⟩ := h
        obtain ⟨h1, h2⟩ := ih i o ts1 hp hall.2
        refine ⟨?_, h2⟩
        simp only [List.all_cons, Bool.and_eq_true]
        exact ⟨hall.1, h1⟩

theorem pop_sendLastOf (l : List (List (ServeOp P))) :
    ∀ (i : Nat) (op : ServeOp P) (l1 : List (List (ServeOp P))),
      pop l i = some (op, l1) → l.all sendLastOf = true → l1.all sendLastOf = true := by
  induction l with
  | nil => intro i op l1 h; simp [pop] at h
  | cons t ts ih =>
    intro i op l1 h hall
    simp only [List.all_cons, Bool.and_eq_true] at hall
    cases i with
    | zero =>
      cases t with
      | nil => simp [pop] at h
      | cons o rest =>
        simp only [pop, Option.some.injEq, Prod.mk.injEq] at h
        obtain ⟨rfl, rfl⟩ := h
        simp only [List.all_cons, Bool.and_eq_true]
        exact ⟨sendLastOf_tail o rest hall.1, hall.2⟩
    | succ i =>
      simp only [pop] at h
      cases hp : pop ts i with
      | none => rw [hp] at h; cases h
      | some r =>
        obtain ⟨o, ts1⟩ := r
        rw [hp] at h
        simp only [Option.some.injEq, Prod.mk.injEq] at h
        obtain ⟨rfl, rfl⟩ := h
        simp only [List.all_cons, Bool.and_eq_true]
        exact ⟨hall.1, ih i o ts1 hp hall.2⟩

theorem step_keeps_sendLast (s s1 : Sys S V H P) (c : Choice) (hstep : s.step c = some s1)
    (hi : s.instances.all sendLast = true) (hs : s.servers.all sendLastOf = true) :
    s1.instances.all sendLast = true ∧ s1.servers.all sendLastOf = true := by
  cases c with
  | inst i =>
    simp only [Sys.step] at hstep
    cases hp : pop s.instances i with
    | none => rw [hp] at hstep; cases hstep
    | some r =>
      obtain ⟨op, l1⟩ := r
      rw [hp] at hstep
      obtain ⟨h1, h2⟩ := pop_sendLast s.instances i op l1 hp hi
      cases op with
      | send e =>
        cases hr : s.receives with
        | zero => simp [hr] at hstep
        | succ n =>
          simp only [hr, Option.some.injEq] at hstep
          subst hstep
          exact ⟨h1, hs⟩
      | go body =>
        simp only [Option.some.injEq] at hstep
        subst hstep
        refine ⟨h1, ?_⟩
        simp only [List.all_append, List.all_cons, List.all_nil, Bool.and_true,
          Bool.and_eq_true]
        exact ⟨hs, h2 body rfl⟩
      | NewJWTSignerHandler _ =>
        simp only [Option.some.injEq] at hstep
        subst hstep
        exact ⟨h1, hs⟩
      | NewProxy _ _ _ _ _ =>
        simp only [Option.some.injEq] at hstep
        subst hstep
        exact ⟨h1, hs⟩
      | NewJWTVerifierHandler _ =>
        simp only [Option.some.injEq] at hstep
        subst hstep
        exact ⟨h1, hs⟩
      | NewReverseProxy _ =>
        simp only [Option.some.injEq] at hstep
        subst hstep
        exact ⟨h1, hs⟩
      | Add _ =>
        simp only [Option.some.injEq] at hstep
        subst hstep
        exact ⟨h1, hs⟩
      | AddFunc _ =>
        simp only [Option.some.injEq] at hstep
        subst hstep
        exact ⟨h1, hs⟩
  | serv j =>
    simp only [Sys.step] at hstep
    cases hp : pop s.servers j with
    | none => rw [hp] at hstep; cases hstep
    | some r =>
      obtain ⟨op, l1⟩ := r
      rw [hp] at hstep
      have h1 := pop_sendLastOf s.servers j op l1 hp hs
      cases op with
      | send e =>
        cases hr : s.receives with
        | zero => simp [hr] at hstep
        | succ n =>
          simp only [hr, Option.some.injEq] at hstep
          subst hstep
          exact ⟨hi, h1⟩
      | Infof _ _ =>
        simp only [Option.some.injEq] at hstep
        subst hstep
        exact ⟨hi, h1⟩
      | Serve _ _ _ _ _ _ =>
        simp only [Option.some.injEq] at hstep
        subst hstep
        exact ⟨hi, h1⟩

theorem run_keeps_sendLast (sched : List Choice) :
    ∀ s s1 : Sys S V H P, s.run sched = some s1 →
      s.instances.all sendLast = true → s.servers.all sendLastOf = true →
      s1.instances.all sendLast = true ∧ s1.servers.all sendLastOf = true := by
  induction sched with
  | nil =>
    intro s s1 hrun hi hs
    simp only [Sys.run, Option.some.injEq] at hrun
    subst hrun
    exact ⟨hi, hs⟩
  | cons c cs ih =>
    intro s s1 hrun hi hs
    simp only [Sys.run] at hrun
    cases hstep : s.step c with
    | none => rw [hstep] at hrun; cases hrun
    | some s2 =>
      rw [hstep] at hrun
      obtain ⟨h1, h2⟩ := step_keeps_sendLast s s2 c hstep hi hs
      exact ih s2 s1 hrun h1 h2

theorem sendLast_body (deps : Deps S V H P) (g : Go S V) : sendLast (g.body deps) = true := by
  cases g with
  | StartForwardProxy c =>
    show sendLast (StartForwardProxy deps c) = true
    cases h1 : deps.NewJWTSignerHandler c.Signer with
    | error e => rw [forward_signer_error deps c e h1]; rfl
    | ok signer =>
      cases h2 : deps.NewProxy signer c.CAKeyFile c.CACrtFile c.InsecureSkipVerify
          c.TrustedCertificates with
      | error e => rw [forward_proxy_error deps c signer e h1 h2]; rfl
      | ok p =>
        rw [forward_constructed deps c signer p h1 h2]
        cases deps.Serve p c.ListenAddr "" "" c.ShutdownTimeout c.SocketPermission <;> rfl
  | StartReverseProxy c =>
    show sendLast (StartReverseProxy deps c) = true
    cases h1 : deps.NewJWTVerifierHandler c.Verifier with
    | error e => rw [reverse_verifier_error deps c e h1]; rfl
    | ok verifier =>
      cases h2 : deps.NewReverseProxy verifier with
      | error e => rw [reverse_proxy_error deps c verifier e h1 h2]; rfl
      | ok p =>
        rw [reverse_constructed deps c verifier p h1 h2]
        cases deps.Serve p c.ListenAddr c.CrtFile c.KeyFile c.ShutdownTimeout
          c.SocketPermission <;> rfl

theorem sendLast_bodiesFrom (world : Nat → Deps S V H P) (gs : List (Go S V)) :
    ∀ k, (bodiesFrom world k gs).all sendLast = true := by
  induction gs with
  | nil => intro k; rfl
  | cons g gs ih =>
    intro k
    simp only [bodiesFrom, List.all_cons, Bool.and_eq_true]
    exact ⟨sendLast_body (world k) g, ih (k + 1)⟩

theorem serveCalls_of_waits (t : List (Op S V H P)) (hw : waits t = true)
    (hl : sendLast t = true) : serveCalls t = [] := by
  cases t with
  | nil => rfl
  | cons op rest =>
    cases op <;> simp_all [waits, Op.isSend, sendLast, serveCalls]

theorem serveCallsOf_of_waits (t : List (ServeOp P)) (hw : serveWaits t = true)
    (hl : sendLastOf t = true) : serveCallsOf t = [] := by
  cases t with
  | nil => rfl
  | cons op rest =>
    cases op <;> simp_all [serveWaits, ServeOp.isSend, sendLastOf, serveCallsOf]

theorem allServeCalls_of_waits (l : List (List (Op S V H P))) (hw : l.all waits = true)
    (hl : l.all sendLast = true) : allServeCalls l = [] := by
  induction l with
  | nil => rfl
  | cons t ts ih =>
    simp only [List.all_cons, Bool.and_eq_true] at hw hl
    simp only [allServeCalls, serveCalls_of_waits t hw.1 hl.1, ih hw.2 hl.2, List.append_nil]

theorem allServeCallsOf_of_waits (l : List (List (ServeOp P)))
    (hw : l.all serveWaits = true) (hl : l.all sendLastOf = true) :
    allServeCallsOf l = [] := by
  induction l with
  | nil => rfl
  | cons t ts ih =>
    simp only [List.all_cons, Bool.and_eq_true] at hw hl
    simp only [allServeCallsOf, serveCallsOf_of_waits t hw.1 hl.1, ih hw.2 hl.2,
      List.append_nil]

theorem mem_allServeCalls (l : List (List (Op S V H P))) :
    ∀ (j : Nat) (t : List (Op S V H P)) (a : ServeArgs P), l[j]? = some t →
      a ∈ serveCalls t → a ∈ allServeCalls l := by
  induction l with
  | nil => intro j t a h; simp at h
  | cons t0 ts ih =>
    intro j t a h ha
    cases j with
    | zero =>
      simp only [List.getElem?_cons_zero, Option.some.injEq] at h
      subst h
      simp only [allServeCalls, List.mem_append]
      exact Or.inl ha
    | succ j =>
      simp only [List.getElem?_cons_succ] at h
      simp only [allServeCalls, List.mem_append]
      exact Or.inr (ih j t a h ha)

theorem all_served_from_every_state (world : Nat → Deps S V H P) (config : Config S V)
    (n : Nat) (sched : List Choice) (s : Sys S V H P)
    (hrun : (Sys.start world config n).run sched = some s) :
    ∃ sched1 s1, s.run sched1 = some s1 ∧ s1.received = s.received ∧
      s1.receives = s.receives ∧ s1.served.Perm (allServeCalls (launch world config)) := by
  have hstart_i : (Sys.start world config n).instances.all sendLast = true :=
    sendLast_bodiesFrom world _ 0
  have hstart_s : (Sys.start world config n).servers.all sendLastOf = true := rfl
  obtain ⟨hi, hs⟩ := run_keeps_sendLast sched _ s hrun hstart_i hstart_s
  obtain ⟨sched1, s1, hrun1, hquiet, hr1, hr2⟩ := runs_to_quiet s.size s rfl
  obtain ⟨hi1, hs1⟩ := run_keeps_sendLast sched1 s s1 hrun1 hi hs
  simp only [Sys.quiet, Bool.and_eq_true] at hquiet
  have hnone : s1.toServe = [] := by
    simp only [Sys.toServe, allServeCalls_of_waits _ hquiet.1 hi1,
      allServeCallsOf_of_waits _ hquiet.2 hs1, List.append_nil]
  have hp1 := run_keeps_serves sched1 s s1 hrun1
  have hp0 := run_keeps_serves sched _ s hrun
  have hinit : (Sys.start world config n).served ++ (Sys.start world config n).toServe =
      allServeCalls (launch world config) := by
    simp [Sys.start, Sys.toServe, allServeCallsOf]
  rw [hnone, List.append_nil] at hp1
  rw [hinit] at hp0
  exact ⟨sched1, s1, hrun1, hr1, hr2, hp1.trans hp0⟩

theorem served_without_receive (world : Nat → Deps S V H P) (config : Config S V) (j : Nat)
    (g : Go S V) (hj : (RunProxies (H := H) (P := P) config).started[j]? = some g)
    (h : g.startupError (world j) = none) :
    abortSends (g.body (world j)) = [] ∧
    ∃ a, serveCalls (g.body (world j)) = [a] ∧
      (world j).Serve a.proxy a.listenAddr a.crtFile a.keyFile a.shutdownTimeout
        a.socketPermission = none ∧
      ∃ sched s, (Sys.start world config 0).run sched = some s ∧ s.served = [a] ∧
        s.received = [] ∧ ∀ i : Nat, i ≠ j → s.instances[i]? = (launch world config)[i]? := by
  refine ⟨by rw [abortSends_body, h]; rfl, ?_⟩
  obtain ⟨o1, o2, name, a, f, h1, h2, hbody, hcalls, hserve⟩ :=
    body_of_no_startupError (world j) g h
  refine ⟨a, hcalls, hserve, _, _,
    instance_runs (Sys.start world config 0) j o1 o2 name a f h1 h2 ?_ rfl, ?_, rfl, ?_⟩
  · show (launch world config)[j]? = _
    rw [launch_getElem?, hj, ← hbody]
    rfl
  · simp [Sys.start]
  · intro i hij
    show ((launch world config).set j [])[i]? = _
    rw [List.getElem?_set_ne (Ne.symm hij)]

theorem step_of_not_send (s : Sys S V H P) (i : Nat) (op : Op S V H P)
    (instances : List (List (Op S V H P))) (hpop : pop s.instances i = some (op, instances))
    (hop : op.isSend = false) : (s.step (Choice.inst i)).isSome = true := by
  cases op <;> simp_all [Op.isSend, Sys.step]

theorem step_serv_enabled (s : Sys S V H P) (j : Nat) (op : ServeOp P)
    (servers : List (List (ServeOp P))) (hpop : pop s.servers j = some (op, servers))
    (hop : op.isSend = false) : (s.step (Choice.serv j)).isSome = true := by
  obtain ⟨s1, h1, _⟩ := step_serv_of_not_send s j op servers hpop hop
  rw [h1]
  rfl

/-- C2: a startup failure of one instance does not keep another from starting.
The goroutine RunProxies starts for an entry runs that entry's start function
on that entry and with its own construction results, and an operation other
than a send on abort, of an instance goroutine or of a goroutine that calls
Serve, can always be done, whatever state the other goroutines are in.  So when
exactly one started instance has a startup error, that error is the one error
sent on abort, and every other started instance sends none and calls Serve
once, without error.  It can do so while no other goroutine has moved; and from
every state the goroutines can reach, whatever the failing instance has done
and whether or not the caller has received its error, there is a continuation
without any receive from abort after which exactly the calls of Serve of all
instances have been made, that instance's call among them. -/
theorem one_failure_others_served (world : Nat → Deps S V H P) (config : Config S V)
    (k : Nat) (g : Go S V) (e : Error)
    (hk : (RunProxies (H := H) (P := P) config).started[k]? = some g)
    (hfail : g.startupError (world k) = some e)
    (hothers : ∀ (j : Nat) (g1 : Go S V), j ≠ k →
      (RunProxies (H := H) (P := P) config).started[j]? = some g1 →
      g1.startupError (world j) = none) :
    (∀ j : Nat, (launch world config)[j]? =
      ((RunProxies (H := H) (P := P) config).started[j]?).map
        fun g1 : Go S V => g1.body (world j)) ∧
    (∀ (s : Sys S V H P) i op instances, pop s.instances i = some (op, instances) →
      op.isSend = false → (s.step (Choice.inst i)).isSome = true) ∧
    (∀ (s : Sys S V H P) j op servers, pop s.servers j = some (op, servers) →
      op.isSend = false → (s.step (Choice.serv j)).isSome = true) ∧
    allSends (launch world config) = [e] ∧
    (∀ (j : Nat) (g1 : Go S V), j ≠ k →
      (RunProxies (H := H) (P := P) config).started[j]? = some g1 →
      abortSends (g1.body (world j)) = [] ∧
      ∃ a, serveCalls (g1.body (world j)) = [a] ∧
        (world j).Serve a.proxy a.listenAddr a.crtFile a.keyFile a.shutdownTimeout
          a.socketPermission = none ∧
        (∃ sched s, (Sys.start world config 0).run sched = some s ∧ s.served = [a] ∧
          s.received = [] ∧
          ∀ i : Nat, i ≠ j → s.instances[i]? = (launch world config)[i]?) ∧
        ∀ (n : Nat) (sched : List Choice) (s : Sys S V H P),
          (Sys.start world config n).run sched = some s →
          ∃ sched1 s1, s.run sched1 = some s1 ∧ s1.received = s.received ∧
            s1.receives = s.receives ∧
            s1.served.Perm (allServeCalls (launch world config)) ∧ a ∈ s1.served) := by
  refine ⟨launch_getElem? world config, step_of_not_send, step_serv_enabled, ?_, ?_⟩
  · unfold launch
    rw [allSends_bodiesFrom]
    apply failuresFrom_single world _ 0 k g e hk
    · rw [Nat.zero_add]; exact hfail
    · intro j g1 hjk hj
      rw [Nat.zero_add]
      exact hothers j g1 hjk hj
  · intro j g1 hjk hj
    obtain ⟨h0, a, ha, hserve, hrun0⟩ :=
      served_without_receive world config j g1 hj (hothers j g1 hjk hj)
    refine ⟨h0, a, ha, hserve, hrun0, ?_⟩
    intro n sched s hrun
    obtain ⟨sched1, s1, hrun1, hr1, hr2, hperm⟩ :=
      all_served_from_every_state world config n sched s hrun
    refine ⟨sched1, s1, hrun1, hr1, hr2, hperm, ?_⟩
    apply hperm.mem_iff.2
    apply mem_allServeCalls (launch world config) j (g1.body (world j)) a
    · rw [launch_getElem?, hj]
      rfl
    · rw [ha]
      exact List.mem_singleton.2 rfl

theorem soundSignerConfig_others (j : Nat) (g1 : Go String String) (hj : j ≠ 2)
    (hg : (RunProxies (H := Nat) (P := Nat) soundSignerConfig).started[j]? = some g1) :
    g1.startupError (demoDeps j) = none := by
  have hs : (RunProxies (H := Nat) (P := Nat) soundSignerConfig).started =
      [Go.StartForwardProxy (demoSigner true ":8080" "ca.key" "key.pem"),
       Go.StartReverseProxy (demoVerifier true ":8081" "keys"),
       Go.StartReverseProxy (demoVerifier true ":8082" "")] := rfl
  rw [hs] at hg
  match j, hj, hg with
  | 0, _, hg =>
    simp only [List.getElem?_cons_zero, Option.some.injEq] at hg
    subst hg
    rfl
  | 1, _, hg =>
    simp only [List.getElem?_cons_succ, List.getElem?_cons_zero, Option.some.injEq] at hg
    subst hg
    rfl
  | 2, hj, _ => exact absurd rfl hj
  | j + 3, _, hg => simp at hg

/-- The signer entry and the first verifier entry are sound and the second
verifier entry has no settings: its error is the one error sent on abort.  With
a caller that never receives, once that instance waits in its send the
goroutines still go on until the first verifier's Serve has been called. -/
theorem one_failure_others_served_witness :
    (RunProxies (H := Nat) (P := Nat) soundSignerConfig).started[2]? =
        some (Go.StartReverseProxy (demoVerifier true ":8082" "")) ∧
      (Go.StartReverseProxy (demoVerifier true ":8082" "") : Go String String).startupError
        (demoDeps 2) = some "Failed to create JWT verifier: no key server" ∧
      allSends (launch demoDeps soundSignerConfig) =
        ["Failed to create JWT verifier: no key server"] ∧
      ∃ s, (Sys.start demoDeps soundSignerConfig 0).run [Choice.inst 2] = some s ∧
        s.instances[2]? = some [Op.send "Failed to create JWT verifier: no key server"] ∧
        ∃ a, serveCalls ((Go.StartReverseProxy (demoVerifier true ":8081" "keys") :
            Go String String).body (demoDeps 1)) = [a] ∧
          ∃ sched1 s1, s.run sched1 = some s1 ∧ s1.received = s.received ∧
            s1.receives = s.receives ∧ a ∈ s1.served :=
  ⟨rfl, rfl,
    (one_failure_others_served demoDeps soundSignerConfig 2
      (Go.StartReverseProxy (demoVerifier true ":8082" ""))
      "Failed to create JWT verifier: no key server" rfl rfl soundSignerConfig_others).2.2.2.1,
    _, rfl, rfl,
    match (one_failure_others_served demoDeps soundSignerConfig 2
      (Go.StartReverseProxy (demoVerifier true ":8082" ""))
      "Failed to create JWT verifier: no key server" rfl rfl soundSignerConfig_others).2.2.2.2
      1 (Go.StartReverseProxy (demoVerifier true ":8081" "keys")) (by decide) rfl with
    | ⟨_, a, ha, _, _, hall⟩ =>
      match hall 0 [Choice.inst 2] _ rfl with
      | ⟨sched1, s1, h1, h2, h3, _, h5⟩ => ⟨a, ha, sched1, s1, h1, h2, h3, h5⟩⟩

theorem abortSends_cons (op : Op S V H P) (rest : List (Op S V H P)) :
    abortSends (op :: rest) = abortSends [op] ++ abortSends rest := by
  cases op <;> simp [abortSends]

theorem serveSends_cons (op : ServeOp P) (rest : List (ServeOp P)) :
    serveSends (op :: rest) = serveSends [op] ++ serveSends rest := by
  cases op <;> simp [serveSends]

theorem pop_allSends (l : List (List (Op S V H P))) :
    ∀ (i : Nat) (op : Op S V H P) (l1 : List (List (Op S V H P))),
      pop l i = some (op, l1) → (allSends l).Perm (abortSends [op] ++ allSends l1) := by
  induction l with
  | nil => intro i op l1 h; simp [pop] at h
  | cons t ts ih =>
    intro i op l1 h
    cases i with
    | zero =>
      cases t with
      | nil => simp [pop] at h
      | cons o rest =>
        simp only [pop, Option.some.injEq, Prod.mk.injEq] at h
        obtain ⟨rfl, rfl⟩ := h
        simp only [allSends]
        rw [abortSends_cons, List.append_assoc]
    | succ i =>
      simp only [pop] at h
      cases hp : pop ts i with
      | none => rw [hp] at h; cases h
      | some r =>
        obtain ⟨o, ts1⟩ := r
        rw [hp] at h
        simp only [Option.some.injEq, Prod.mk.injEq] at h
        obtain ⟨rfl, rfl⟩ := h
        have hperm := ih i o ts1 hp
        simp only [allSends]
        rw [← Multiset.coe_eq_coe] at hperm ⊢
        simp only [← Multiset.coe_add] at hperm ⊢
        rw [hperm]
        abel

theorem pop_allServeSends (l : List (List (ServeOp P))) :
    ∀ (i : Nat) (op : ServeOp P) (l1 : List (List (ServeOp P))),
      pop l i = some (op, l1) → (allServeSends l).Perm (serveSends [op] ++ allServeSends l1) := by
  induction l with
  | nil => intro i op l1 h; simp [pop] at h
  | cons t ts ih =>
    intro i op l1 h
    cases i with
    | zero =>
      cases t with
      | nil => simp [pop] at h
      | cons o rest =>
        simp only [pop, Option.some.injEq, Prod.mk.injEq] at h
        obtain ⟨rfl, rfl⟩ := h
        simp only [allServeSends]
        rw [serveSends_cons, List.append_assoc]
    | succ i =>
      simp only [pop] at h
      cases hp : pop ts i with
      | none => rw [hp] at h; cases h
      | some r =>
        obtain ⟨o, ts1⟩ := r
        rw [hp] at h
        simp only [Option.some.injEq, Prod.mk.injEq] at h
        obtain ⟨rfl, rfl⟩ := h
        have hperm := ih i o ts1 hp
        simp only [allServeSends]
        rw [← Multiset.coe_eq_coe] at hperm ⊢
        simp only [← Multiset.coe_add] at hperm ⊢
        rw [hperm]
        abel

theorem allServeSends_append (l : List (List (ServeOp P))) (body : List (ServeOp P)) :
    allServeSends (l ++ [body]) = allServeSends l ++ serveSends body := by
  induction l with
  | nil => simp [allServeSends]
  | cons t ts ih => simp [allServeSends, ih]

theorem step_keeps_errors (s s1 : Sys S V H P) (c : Choice) (hstep : s.step c = some s1) :
    (s1.received ++ s1.pending).Perm (s.received ++ s.pending) ∧
    s1.received.length + s1.receives = s.received.length + s.receives := by
  cases c with
  | inst i =>
    simp only [Sys.step] at hstep
    cases hp : pop s.instances i with
    | none => rw [hp] at hstep; cases hstep
    | some r =>
      obtain ⟨op, l1⟩ := r
      rw [hp] at hstep
      have hperm := pop_allSends s.instances i op l1 hp
      rw [← Multiset.coe_eq_coe] at hperm
      simp only [← Multiset.coe_add] at hperm
      cases op with
      | send e =>
        cases hr : s.receives with
        | zero => simp [hr] at hstep
        | succ n =>
          simp only [hr, Option.some.injEq] at hstep
          subst hstep
          refine ⟨?_, by simp; omega⟩
          simp only [Sys.pending]
          rw [← Multiset.coe_eq_coe]
          simp only [← Multiset.coe_add]
          rw [hperm]
          simp only [abortSends]
          abel
      | go body =>
        simp only [Option.some.injEq] at hstep
        subst hstep
        refine ⟨?_, rfl⟩
        simp only [Sys.pending, allServeSends_append]
        rw [← Multiset.coe_eq_coe]
        simp only [← Multiset.coe_add]
        rw [hperm]
        simp only [abortSends, List.append_nil]
        abel
      | NewJWTSignerHandler _ =>
        simp only [Option.some.injEq] at hstep
        subst hstep
        refine ⟨?_, rfl⟩
        simp only [Sys.pending]
        rw [← Multiset.coe_eq_coe]
        simp only [← Multiset.coe_add]
        rw [hperm]
        simp [abortSends]
      | NewProxy _ _ _ _ _ =>
        simp only [Option.some.injEq] at hstep
        subst hstep
        refine ⟨?_, rfl⟩
        simp only [Sys.pending]
        rw [← Multiset.coe_eq_coe]
        simp only [← Multiset.coe_add]
        rw [hperm]
        simp [abortSends]
      | NewJWTVerifierHandler _ =>
        simp only [Option.some.injEq] at hstep
        subst hstep
        refine ⟨?_, rfl⟩
        simp only [Sys.pending]
        rw [← Multiset.coe_eq_coe]
        simp only [← Multiset.coe_add]
        rw [hperm]
        simp [abortSends]
      | NewReverseProxy _ =>
        simp only [Option.some.injEq] at hstep
        subst hstep
        refine ⟨?_, rfl⟩
        simp only [Sys.pending]
        rw [← Multiset.coe_eq_coe]
        simp only [← Multiset.coe_add]
        rw [hperm]
        simp [abortSends]
      | Add _ =>
        simp only [Option.some.injEq] at hstep
        subst hstep
        refine ⟨?_, rfl⟩
        simp only [Sys.pending]
        rw [← Multiset.coe_eq_coe]
        simp only [← Multiset.coe_add]
        rw [hperm]
        simp [abortSends]
      | AddFunc _ =>
        simp only [Option.some.injEq] at hstep
        subst hstep
        refine ⟨?_, rfl⟩
        simp only [Sys.pending]
        rw [← Multiset.coe_eq_coe]
        simp only [← Multiset.coe_add]
        rw [hperm]
        simp [abortSends]
  | serv j =>
    simp only [Sys.step] at hstep
    cases hp : pop s.servers j with
    | none => rw [hp] at hstep; cases hstep
    | some r =>
      obtain ⟨op, l1⟩ := r
      rw [hp] at hstep
      have hperm := pop_allServeSends s.servers j op l1 hp
      rw [← Multiset.coe_eq_coe] at hperm
      simp only [← Multiset.coe_add] at hperm
      cases op with
      | send e =>
        cases hr : s.receives with
        | zero => simp [hr] at hstep
        | succ n =>
          simp only [hr, Option.some.injEq] at hstep
          subst hstep
          refine ⟨?_, by simp; omega⟩
          simp only [Sys.pending]
          rw [← Multiset.coe_eq_coe]
          simp only [← Multiset.coe_add]
          rw [hperm]
          simp only [serveSends, List.filterMap_cons, List.filterMap_nil]
          abel
      | Infof _ _ =>
        simp only [Option.some.injEq] at hstep
        subst hstep
        refine ⟨?_, rfl⟩
        simp only [Sys.pending]
        rw [← Multiset.coe_eq_coe]
        simp only [← Multiset.coe_add]
        rw [hperm]
        simp [serveSends]
      | Serve _ _ _ _ _ _ =>
        simp only [Option.some.injEq] at hstep
        subst hstep
        refine ⟨?_, rfl⟩
        simp only [Sys.pending]
        rw [← Multiset.coe_eq_coe]
        simp only [← Multiset.coe_add]
        rw [hperm]
        simp [serveSends]

theorem run_keeps_errors (sched : List Choice) :
    ∀ s s1 : Sys S V H P, s.run sched = some s1 →
      (s1.received ++ s1.pending).Perm (s.received ++ s.pending) ∧
      s1.received.length + s1.receives = s.received.length + s.receives := by
  induction sched with
  | nil =>
    intro s s1 hrun
    simp only [Sys.run, Option.some.injEq] at hrun
    subst hrun
    exact ⟨List.Perm.refl _, rfl⟩
  | cons c cs ih =>
    intro s s1 hrun
    simp only [Sys.run] at hrun
    cases hstep : s.step c with
    | none => rw [hstep] at hrun; cases hrun
    | some s2 =>
      rw [hstep] at hrun
      obtain ⟨h1, h2⟩ := step_keeps_errors s s2 c hstep
      obtain ⟨h3, h4⟩ := ih s2 s1 hrun
      exact ⟨h3.trans h1, h4.trans h2⟩

/-- C5, as stated, fails: in demoConfig the signer entry and the second
verifier entry both fail to start, and a caller that receives twice from abort
is delivered both errors, the second one as a further abort error. -/
theorem two_failures_both_delivered :
    failuresFrom demoDeps 0 (RunProxies (H := Nat) (P := Nat) demoConfig).started =
      ["Failed to create JWT signer: no private key",
       "Failed to create JWT verifier: no key server"] ∧
    ((Sys.start demoDeps demoConfig 2).run
        [Choice.inst 0, Choice.inst 0, Choice.inst 2, Choice.inst 2]).map
      (fun s => s.received) =
      some ["Failed to create JWT signer: no private key",
            "Failed to create JWT verifier: no key server"] := by
  decide

/-- C5, amended: the channel abort carries every startup failure.  Each failing
instance sends its own error on abort, and nothing drops one or sets it aside:
in every state the goroutines reach with a caller that does n receives, each
startup error has either been received by the caller or is still to be sent,
and the number received plus the number of receives the caller has left is n.
A caller that receives once is delivered one error, the others staying in
their send. -/
theorem abort_carries_every_failure (world : Nat → Deps S V H P) (config : Config S V) :
    allSends (launch world config) =
      failuresFrom world 0 (RunProxies (H := H) (P := P) config).started ∧
    ∀ (n : Nat) (sched : List Choice) (s : Sys S V H P),
      (Sys.start world config n).run sched = some s →
      (s.received ++ s.pending).Perm
        (failuresFrom world 0 (RunProxies (H := H) (P := P) config).started) ∧
      s.received.length + s.receives = n := by
  have hall : allSends (launch world config) =
      failuresFrom world 0 (RunProxies (H := H) (P := P) config).started := by
    unfold launch
    exact allSends_bodiesFrom world _ 0
  refine ⟨hall, ?_⟩
  intro n sched s hrun
  obtain ⟨h1, h2⟩ := run_keeps_errors sched _ s hrun
  constructor
  · have hstart : (Sys.start world config n).received ++ (Sys.start world config n).pending =
        failuresFrom world 0 (RunProxies (H := H) (P := P) config).started := by
      simp [Sys.start, Sys.pending, allServeSends, hall]
    rw [← hstart]
    exact h1
  · rw [h2]
    simp [Sys.start]

/-- With a caller that receives once, after the signer instance of demoConfig
has sent its error the caller holds one error and has no receive left. -/
theorem abort_carries_every_failure_witness :
    ∃ s, (Sys.start demoDeps demoConfig 1).run [Choice.inst 0, Choice.inst 0] = some s ∧
      (s.received ++ s.pending).Perm
        (failuresFrom demoDeps 0 (RunProxies (H := Nat) (P := Nat) demoConfig).started) ∧
      s.received.length + s.receives = 1 :=
  ⟨_, rfl, (abort_carries_every_failure demoDeps demoConfig).2 1
    [Choice.inst 0, Choice.inst 0] _ rfl⟩

end jwtproxy
